import Mathlib

/-!
# Verification of the omniviv sync / position-estimation engine

Shallow embedding of the Rust sources (`server/src/providers/osm.rs`,
`server/src/sync.rs`, `server/src/services/vehicle_positions.rs`) and proofs
about them.  Conventions used throughout:

* machine floats (`f64`) are modelled as rationals `ℚ`; the haversine
  distance, whose value comes from transcendental functions, is passed in as
  an explicit parameter `hav` so every claim about control flow holds for the
  actual distance function;
* instants (`chrono::DateTime<Utc>`) are modelled as `Int` seconds since the
  epoch; `chrono`'s `num_minutes`/`num_seconds` and Rust's `i64` division
  truncate toward zero, which is `Int.tdiv`;
* `HashMap`s are modelled as association lists (iteration order fixed to the
  list order) or, for the departure store, as a total function to `Option`.
-/

namespace Omniviv

/-! ## OSM provider: errors and retry loop (`providers/osm.rs`) -/

/-- `OsmError` from `providers/osm.rs`. -/
inductive OsmError where
  | networkError (msg : String)
  | retryableError (msg : String)
  | parseError (msg : String)
deriving DecidableEq

/-- `OsmError::is_retryable`: `matches!(self, NetworkError(_) | RetryableError(_))`. -/
def OsmError.is_retryable : OsmError → Bool
  | .networkError _ => true
  | .retryableError _ => true
  | .parseError _ => false

/-- Outcome of one HTTP round trip to the Overpass endpoint, abstracting the
network: either the send (or body read) fails, or a response arrives with a
status code and a body text. -/
inductive HttpOutcome where
  | sendFailure (msg : String)
  | response (status : Nat) (text : String)

/-- `http::StatusCode::is_success`: status in `200..=299`. -/
def statusIsSuccess (s : Nat) : Bool := 200 ≤ s && s ≤ 299

/-- `http::StatusCode::is_server_error`: status in `500..=599`. -/
def statusIsServerError (s : Nat) : Bool := 500 ≤ s && s ≤ 599

/-- `OsmClient::execute_request`: send failures become `NetworkError`; a
non-success status becomes `RetryableError` when it is 429 or 5xx, and
otherwise `NetworkError` carrying the status and a 200-char body preview. -/
def execute_request : HttpOutcome → Except OsmError String
  | .sendFailure msg => .error (.networkError msg)
  | .response status text =>
    if !statusIsSuccess status then
      if status == 429 || statusIsServerError status then
        .error (.retryableError ("HTTP " ++ toString status))
      else
        .error (.networkError ("HTTP " ++ toString status ++ ": " ++ text.take 200))
    else
      .ok text

/-- `MAX_RETRIES` in `providers/osm.rs`. -/
def MAX_RETRIES : Nat := 3

/-- `INITIAL_RETRY_DELAY_SECS` in `providers/osm.rs`. -/
def INITIAL_RETRY_DELAY_SECS : Nat := 5

/-- Observable trace of `OsmClient::execute_with_retry`: the final result, the
number of HTTP attempts actually made, and the backoff delays slept (in
seconds, in order). -/
structure RetryTrace where
  result : Except OsmError String
  attempts : Nat
  delays : List Nat

/-- The loop body of `OsmClient::execute_with_retry`: for
`attempt in 0..MAX_RETRIES`, sleep `INITIAL_RETRY_DELAY_SECS * 2^(attempt-1)`
before every attempt after the first, then run the request; return on success,
continue on a retryable error, return immediately on a non-retryable one.
`responses` gives the network outcome of each attempt. -/
def retryFrom (responses : Nat → HttpOutcome) : Nat → Nat → Option OsmError → List Nat → RetryTrace
  | attempt, 0, lastError, delays =>
    { result := .error (lastError.getD (.networkError "Max retries exceeded")),
      attempts := attempt, delays := delays.reverse }
  | attempt, fuel + 1, _lastError, delays =>
    let delays := if attempt > 0 then INITIAL_RETRY_DELAY_SECS * 2 ^ (attempt - 1) :: delays else delays
    match execute_request (responses attempt) with
    | .ok text => { result := .ok text, attempts := attempt + 1, delays := delays.reverse }
    | .error e =>
      if e.is_retryable then
        retryFrom responses (attempt + 1) fuel (some e) delays
      else
        { result := .error e, attempts := attempt + 1, delays := delays.reverse }

/-- `OsmClient::execute_with_retry`. -/
def execute_with_retry (responses : Nat → HttpOutcome) : RetryTrace :=
  retryFrom responses 0 MAX_RETRIES none []

set_option maxRecDepth 4000 in
/-- **C1.** The claim states that HTTP 4xx errors other than 429 are Fatal and
fail immediately without any retry.  The code instead wraps such a status in
`OsmError::NetworkError`, and `is_retryable` classifies every `NetworkError`
as retryable, so a constant HTTP 404 is attempted all 3 times, with the 5 s
and 10 s exponential backoff slept in between, before the error surfaces. -/
theorem c1_http_404_is_retried_three_times :
    (execute_with_retry fun _ => .response 404 "Not Found").attempts = 3 ∧
    (execute_with_retry fun _ => .response 404 "Not Found").delays = [5, 10] ∧
    (execute_with_retry fun _ => .response 404 "Not Found").result =
      .error (.networkError "HTTP 404: Not Found") ∧
    (OsmError.networkError "HTTP 404: Not Found").is_retryable = true := by
  refine ⟨rfl, rfl, rfl, rfl⟩

/-! ## Time model -/

/-- Model of an RFC 3339 timestamp string: `valid t` is a string that
`DateTime::parse_from_rfc3339` parses to the instant `t` (seconds since the
epoch); `invalid raw` is a string it rejects. -/
inductive TimeStr where
  | valid (secs : Int)
  | invalid (raw : String)
deriving DecidableEq

/-- The result of `DateTime::parse_from_rfc3339` on the modelled string. -/
def TimeStr.parse : TimeStr → Option Int
  | .valid secs => some secs
  | .invalid _ => none

/-! ## Departure parsing and the departure store (`sync.rs`) -/

/-- A stop event as consumed by `SyncManager::parse_departures` through the
accessors `line_number()`, `destination()`, `planned_departure()`,
`estimated_departure()` and `platform()` of the EFA provider's stop-event
type (each returning an optional string). -/
structure StopEvent where
  line_number : Option String
  destination : Option String
  planned_departure : Option TimeStr
  estimated_departure : Option TimeStr
  platform : Option String
deriving DecidableEq

/-- `Departure` from `sync.rs`. -/
structure Departure where
  stop_ifopt : String
  line_number : String
  destination : String
  planned_departure : TimeStr
  estimated_departure : Option TimeStr
  delay_minutes : Option Int
  platform : Option String
deriving DecidableEq

/-- Rust `as i32` on an `i64`: keep the low 32 bits, read as two's
complement. -/
def i64_as_i32 (n : Int) : Int := (n + 2 ^ 31) % 2 ^ 32 - 2 ^ 31

/-- The delay computation in `SyncManager::parse_departures`: when an
estimated timestamp exists and both timestamps parse, the difference in
seconds divided by 60 with Rust's truncating `i64` division, then narrowed
to `i32` with wrapping (`… as i32`); `none` otherwise. -/
def compute_delay_minutes (planned : TimeStr) (estimated : Option TimeStr) : Option Int :=
  match estimated with
  | some e =>
    match planned.parse, e.parse with
    | some planned_dt, some estimated_dt =>
      some (i64_as_i32 ((estimated_dt - planned_dt).tdiv 60))
    | _, _ => none
  | none => none

/-- The `i32` narrowing is the identity on values that fit. -/
theorem i64_as_i32_of_fits (n : Int) (hlo : -(2 ^ 31) ≤ n) (hhi : n < 2 ^ 31) :
    i64_as_i32 n = n := by
  unfold i64_as_i32
  omega

/-- One iteration of the event loop in `SyncManager::parse_departures`:
`continue` (here `none`) when line number, destination or planned time is
absent, or when the planned time parses to an instant strictly before `now`;
otherwise build the `Departure`. -/
def parse_departure_event (stop_ifopt : String) (now : Int) (event : StopEvent) :
    Option Departure :=
  match event.line_number with
  | none => none
  | some line_number =>
  match event.destination with
  | none => none
  | some destination =>
  match event.planned_departure with
  | none => none
  | some planned =>
  if (match planned.parse with
      | some planned_dt => decide (planned_dt < now)
      | none => false) then
    none
  else
    let estimated := event.estimated_departure
    let platform := event.platform
    some { stop_ifopt := stop_ifopt, line_number := line_number,
           destination := destination, planned_departure := planned,
           estimated_departure := estimated,
           delay_minutes := compute_delay_minutes planned estimated,
           platform := platform }

/-- `SyncManager::parse_departures`. -/
def parse_departures (stop_ifopt : String) (stop_events : List StopEvent) (now : Int) :
    List Departure :=
  stop_events.filterMap (parse_departure_event stop_ifopt now)

/-- Reduction of `parse_departure_event` on an event with all mandatory
fields and an unparseable planned timestamp: the past check cannot fire and
the departure is kept. -/
theorem parse_departure_event_invalid_planned (ifopt : String) (now : Int)
    (l d raw : String) (est : Option TimeStr) (plat : Option String) :
    parse_departure_event ifopt now ⟨some l, some d, some (.invalid raw), est, plat⟩ =
      some ⟨ifopt, l, d, .invalid raw, est, compute_delay_minutes (.invalid raw) est, plat⟩ :=
  rfl

/-- Reduction of `parse_departure_event` on an event whose planned timestamp
parses to an instant strictly before `now`: the event is dropped. -/
theorem parse_departure_event_dropped (ifopt : String) (now : Int)
    (l d : String) (t0 : Int) (est : Option TimeStr) (plat : Option String)
    (hlt : t0 < now) :
    parse_departure_event ifopt now ⟨some l, some d, some (.valid t0), est, plat⟩ = none := by
  unfold parse_departure_event
  simp [TimeStr.parse, hlt]

/-- Reduction of `parse_departure_event` on an event whose planned timestamp
parses to `now` or later: the departure is kept. -/
theorem parse_departure_event_kept (ifopt : String) (now : Int)
    (l d : String) (t0 : Int) (est : Option TimeStr) (plat : Option String)
    (hge : ¬ t0 < now) :
    parse_departure_event ifopt now ⟨some l, some d, some (.valid t0), est, plat⟩ =
      some ⟨ifopt, l, d, .valid t0, est, compute_delay_minutes (.valid t0) est, plat⟩ := by
  unfold parse_departure_event
  simp [TimeStr.parse, hge]

/-- The in-memory departure store (`HashMap<String, Vec<Departure>>` behind
the `RwLock`), modelled as a total function to `Option`. -/
def DepartureStore := String → Option (List Departure)

/-- `HashMap::insert` on the modelled store. -/
def store_insert (store : DepartureStore) (k : String) (v : List Departure) : DepartureStore :=
  fun key => if key = k then some v else store key

/-- `HashMap::remove` on the modelled store. -/
def store_remove (store : DepartureStore) (k : String) : DepartureStore :=
  fun key => if key = k then none else store key

/-- The departure-monitor response as used by `sync_all_departures`: only its
`stop_events` field is read. -/
structure DepartureMonitorResponse where
  stop_events : List StopEvent
deriving DecidableEq

/-- The per-result body of the loop in `SyncManager::sync_all_departures`:
on a successful fetch, parse; remove the stop's entry when the parsed list is
empty and replace it otherwise; on an error keep the store unchanged. -/
def apply_departure_result (now : Int) (store : DepartureStore)
    (entry : String × Except String DepartureMonitorResponse) : DepartureStore :=
  match entry with
  | (ifopt, .ok response) =>
    let departures := parse_departures ifopt response.stop_events now
    if departures.isEmpty then store_remove store ifopt
    else store_insert store ifopt departures
  | (_, .error _) => store

/-- The store update performed by one departure-sync pass
(`SyncManager::sync_all_departures`), folding the batch results over the
store under the single writer lock. -/
def sync_all_departures (now : Int)
    (results : List (String × Except String DepartureMonitorResponse))
    (store : DepartureStore) : DepartureStore :=
  results.foldl (apply_departure_result now) store

/-- Applying one batch result leaves every other key of the store unchanged. -/
theorem apply_departure_result_ne (now : Int) (store : DepartureStore)
    (e : String × Except String DepartureMonitorResponse) (k : String)
    (hk : k ≠ e.1) : apply_departure_result now store e k = store k := by
  obtain ⟨ifopt, r⟩ := e
  cases r with
  | error msg => rfl
  | ok resp =>
    simp only [apply_departure_result]
    cases hemp : (parse_departures ifopt resp.stop_events now).isEmpty with
    | true => simp [hemp, store_remove, hk]
    | false => simp [hemp, store_insert, hk]

/-- A key that is not among the fetched stops is never touched by the pass. -/
theorem sync_all_departures_untouched (now : Int)
    (results : List (String × Except String DepartureMonitorResponse))
    (store : DepartureStore) (k : String)
    (hk : k ∉ results.map Prod.fst) :
    sync_all_departures now results store k = store k := by
  induction results generalizing store with
  | nil => rfl
  | cons e rest ih =>
    simp only [List.map_cons, List.mem_cons, not_or] at hk
    calc sync_all_departures now (e :: rest) store k
        = sync_all_departures now rest (apply_departure_result now store e) k := rfl
      _ = apply_departure_result now store e k := ih (apply_departure_result now store e) hk.2
      _ = store k := apply_departure_result_ne now store e k hk.1

/-- The final value of the entry of a fetched stop: each key occurs at most
once in the batch results, so the stop's own result decides its entry. -/
theorem sync_all_departures_entry (now : Int) (ifopt : String)
    (r : Except String DepartureMonitorResponse)
    (results : List (String × Except String DepartureMonitorResponse)) :
    ∀ store : DepartureStore, (results.map Prod.fst).Nodup → (ifopt, r) ∈ results →
      sync_all_departures now results store ifopt =
        match r with
        | .ok resp =>
          if (parse_departures ifopt resp.stop_events now).isEmpty then none
          else some (parse_departures ifopt resp.stop_events now)
        | .error _ => store ifopt := by
  induction results with
  | nil => intro store _ hmem; cases hmem
  | cons e rest ih =>
    intro store hnodup hmem
    simp only [List.map_cons, List.nodup_cons] at hnodup
    rcases List.mem_cons.mp hmem with heq | hrest
    · subst heq
      have hnot : ifopt ∉ rest.map Prod.fst := hnodup.1
      calc sync_all_departures now ((ifopt, r) :: rest) store ifopt
          = sync_all_departures now rest (apply_departure_result now store (ifopt, r)) ifopt := rfl
        _ = apply_departure_result now store (ifopt, r) ifopt :=
            sync_all_departures_untouched _ _ _ _ hnot
        _ = _ := by
            cases r with
            | error msg => rfl
            | ok resp =>
              simp only [apply_departure_result]
              cases hemp : (parse_departures ifopt resp.stop_events now).isEmpty with
              | true => simp [hemp, store_remove]
              | false => simp [hemp, store_insert]
    · have hkey : ifopt ≠ e.1 := by
        intro hc
        exact hnodup.1 (by rw [← hc]; exact List.mem_map_of_mem Prod.fst hrest)
      calc sync_all_departures now (e :: rest) store ifopt
          = sync_all_departures now rest (apply_departure_result now store e) ifopt := rfl
        _ = _ := by
            rw [ih (apply_departure_result now store e) hnodup.2 hrest]
            cases r with
            | ok resp => rfl
            | error msg => exact apply_departure_result_ne now store e ifopt hkey

/-- **C2.** In each departure-sync pass: a stop fetched successfully with a
non-empty parsed list has its entry replaced by that list, a stop fetched
successfully with an empty parsed list has its entry removed, a stop whose
fetch failed keeps its previous entry, and stops outside the fetched set are
untouched. -/
theorem c2_departure_sync_store (now : Int)
    (results : List (String × Except String DepartureMonitorResponse))
    (store : DepartureStore)
    (hnodup : (results.map Prod.fst).Nodup) :
    (∀ ifopt resp, (ifopt, Except.ok resp) ∈ results →
      sync_all_departures now results store ifopt =
        if (parse_departures ifopt resp.stop_events now).isEmpty then none
        else some (parse_departures ifopt resp.stop_events now)) ∧
    (∀ ifopt msg, (ifopt, Except.error msg) ∈ results →
      sync_all_departures now results store ifopt = store ifopt) ∧
    (∀ k, k ∉ results.map Prod.fst →
      sync_all_departures now results store k = store k) := by
  refine ⟨?_, ?_, ?_⟩
  · intro ifopt resp hmem
    exact sync_all_departures_entry now ifopt (.ok resp) results store hnodup hmem
  · intro ifopt msg hmem
    exact sync_all_departures_entry now ifopt (.error msg) results store hnodup hmem
  · intro k hk
    exact sync_all_departures_untouched now results store k hk

/-- Batch results for the departure-sync scenario: stop `X` succeeds with one
upcoming departure, stop `Y` fails, stop `Z` succeeds with no events. -/
def c2ex_results : List (String × Except String DepartureMonitorResponse) :=
  [("X", .ok ⟨[⟨some "3", some "Hbf", some (.valid 100), some (.valid 100), none⟩]⟩),
   ("Y", .error "connection reset"),
   ("Z", .ok ⟨[]⟩)]

/-- A previously stored departure for stops `Y` and `Z`. -/
def c2ex_dep : Departure :=
  ⟨"Y", "4", "West", .valid 200, none, none, none⟩

/-- Store before the pass: `Y` and `Z` hold a previous list, others nothing. -/
def c2ex_store : DepartureStore :=
  fun k => if k = "Y" then some [c2ex_dep] else if k = "Z" then some [c2ex_dep] else none

/-- Witness for C2 on the concrete scenario: `X` replaced, `Y` preserved,
`Z` removed, `W` untouched. -/
theorem c2_witness :
    sync_all_departures 100 c2ex_results c2ex_store "X" =
      some [⟨"X", "3", "Hbf", .valid 100, some (.valid 100), some 0, none⟩] ∧
    sync_all_departures 100 c2ex_results c2ex_store "Y" = some [c2ex_dep] ∧
    sync_all_departures 100 c2ex_results c2ex_store "Z" = none ∧
    sync_all_departures 100 c2ex_results c2ex_store "W" = none := by
  have h := c2_departure_sync_store 100 c2ex_results c2ex_store (by decide)
  refine ⟨?_, ?_, ?_, ?_⟩
  · exact (h.1 "X" ⟨[⟨some "3", some "Hbf", some (.valid 100), some (.valid 100), none⟩]⟩
      (List.Mem.head _)).trans (by decide)
  · exact (h.2.1 "Y" "connection reset" (List.Mem.tail _ (List.Mem.head _))).trans (by decide)
  · exact (h.1 "Z" ⟨[]⟩ (List.Mem.tail _ (List.Mem.tail _ (List.Mem.head _)))).trans (by decide)
  · exact (h.2.2 "W" (by decide)).trans (by decide)

/-- **C6 counterexample.**  The claim's `delay_minutes = (estimated −
planned) / 60 s` fails once the quotient leaves `i32`: the code narrows it
with `as i32` (sync.rs), which wraps.  Both timestamps here are valid
RFC 3339 instants (planned at `now`, estimated `2^31` minutes ≈ 4085 years
later, still before year 9999): the true quotient is `2^31` but the parsed
departure stores `-2^31`. -/
theorem c6_counterexample :
    parse_departure_event "cx" 0
        ⟨some "9", some "Fern", some (.valid 0), some (.valid (2 ^ 31 * 60)), none⟩ =
      some ⟨"cx", "9", "Fern", .valid 0, some (.valid (2 ^ 31 * 60)),
        some (-(2 ^ 31)), none⟩ ∧
    ((2 ^ 31 * 60 : Int) - 0).tdiv 60 = 2 ^ 31 ∧
    (-(2 ^ 31) : Int) ≠ 2 ^ 31 := by
  refine ⟨by decide, by decide, by decide⟩

/-- **C6 (amended).** Departure parsing drops exactly the events whose
planned time parses to an instant strictly before `now` (an instant equal to
`now` is kept); when both the planned and the estimated timestamp parse,
`delay_minutes` is the difference in seconds divided (truncating) by 60 and
then narrowed to `i32` with wrapping — which is the plain quotient whenever
it fits in `i32` — and otherwise `delay_minutes` is `none`; equal planned
and estimated timestamps give `delay_minutes = 0`. -/
theorem c6_departure_parsing (ifopt : String) (now : Int) :
    (∀ ev : StopEvent, ∀ p t, ev.planned_departure = some p → p.parse = some t →
      t < now → parse_departure_event ifopt now ev = none) ∧
    (∀ evs : List StopEvent, ∀ dep t, dep ∈ parse_departures ifopt evs now →
      dep.planned_departure.parse = some t → now ≤ t) ∧
    (∀ ev : StopEvent, ∀ l d p, ev.line_number = some l → ev.destination = some d →
      ev.planned_departure = some p → p.parse = some now →
      (parse_departure_event ifopt now ev).isSome = true) ∧
    (∀ ev : StopEvent, ∀ dep e pt et, parse_departure_event ifopt now ev = some dep →
      dep.planned_departure.parse = some pt → dep.estimated_departure = some e →
      e.parse = some et →
      dep.delay_minutes = some (i64_as_i32 ((et - pt).tdiv 60))) ∧
    (∀ ev : StopEvent, ∀ dep e pt et, parse_departure_event ifopt now ev = some dep →
      dep.planned_departure.parse = some pt → dep.estimated_departure = some e →
      e.parse = some et → -(2 ^ 31) ≤ (et - pt).tdiv 60 → (et - pt).tdiv 60 < 2 ^ 31 →
      dep.delay_minutes = some ((et - pt).tdiv 60)) ∧
    (∀ ev : StopEvent, ∀ dep, parse_departure_event ifopt now ev = some dep →
      (dep.estimated_departure = none ∨ dep.planned_departure.parse = none ∨
        (∃ e, dep.estimated_departure = some e ∧ e.parse = none)) →
      dep.delay_minutes = none) ∧
    (∀ ev : StopEvent, ∀ dep t, parse_departure_event ifopt now ev = some dep →
      dep.planned_departure.parse = some t →
      dep.estimated_departure = some dep.planned_departure →
      dep.delay_minutes = some 0) := by
  have hdrop : ∀ ev : StopEvent, ∀ p t, ev.planned_departure = some p → p.parse = some t →
      t < now → parse_departure_event ifopt now ev = none := by
    intro ev p t hp hparse hlt
    obtain ⟨ln, dst, pl, est, plat⟩ := ev
    dsimp only at hp
    subst hp
    cases p with
    | invalid raw => exact Option.noConfusion hparse
    | valid t0 =>
      simp only [TimeStr.parse, Option.some.injEq] at hparse
      subst hparse
      cases ln with
      | none => rfl
      | some l =>
        cases dst with
        | none => rfl
        | some d => exact parse_departure_event_dropped ifopt now l d t0 est plat hlt
  have hshape : ∀ ev : StopEvent, ∀ dep, parse_departure_event ifopt now ev = some dep →
      (∀ t, dep.planned_departure.parse = some t → ¬ t < now) ∧
      dep.delay_minutes = compute_delay_minutes dep.planned_departure dep.estimated_departure := by
    intro ev dep h
    obtain ⟨ln, dst, pl, est, plat⟩ := ev
    cases ln with
    | none => exact Option.noConfusion h
    | some l =>
    cases dst with
    | none => exact Option.noConfusion h
    | some d =>
    cases pl with
    | none => exact Option.noConfusion h
    | some p =>
    cases p with
    | invalid raw =>
      rw [parse_departure_event_invalid_planned] at h
      injection h with h
      subst h
      refine ⟨?_, rfl⟩
      intro t ht
      exact Option.noConfusion ht
    | valid t0 =>
      by_cases hlt : t0 < now
      · rw [parse_departure_event_dropped ifopt now l d t0 est plat hlt] at h
        exact Option.noConfusion h
      · rw [parse_departure_event_kept ifopt now l d t0 est plat hlt] at h
        injection h with h
        subst h
        refine ⟨?_, rfl⟩
        intro t ht
        simp only [TimeStr.parse, Option.some.injEq] at ht
        subst ht
        exact hlt
  have hdelay : ∀ planned e pt et, TimeStr.parse planned = some pt →
      TimeStr.parse e = some et →
      compute_delay_minutes planned (some e) =
        some (i64_as_i32 ((et - pt).tdiv 60)) := by
    intro planned e pt et hp he
    cases planned with
    | invalid raw => exact Option.noConfusion hp
    | valid a =>
      cases e with
      | invalid raw => exact Option.noConfusion he
      | valid b =>
        simp only [TimeStr.parse, Option.some.injEq] at hp he
        subst hp
        subst he
        rfl
  refine ⟨hdrop, ?_, ?_, ?_, ?_, ?_, ?_⟩
  · intro evs dep t hmem hparse
    obtain ⟨ev, _, hev⟩ := List.mem_filterMap.mp hmem
    have := (hshape ev dep hev).1 t hparse
    omega
  · intro ev l d p hln hd hp hparse
    obtain ⟨ln, dst, pl, est, plat⟩ := ev
    dsimp only at hln hd hp
    subst hln
    subst hd
    subst hp
    cases p with
    | invalid raw => exact Option.noConfusion hparse
    | valid t0 =>
      simp only [TimeStr.parse, Option.some.injEq] at hparse
      rw [parse_departure_event_kept ifopt now l d t0 est plat (by simp [hparse])]
      rfl
  · intro ev dep e pt et h hpt hest het
    have h2 := (hshape ev dep h).2
    rw [hest] at h2
    rw [h2]
    exact hdelay dep.planned_departure e pt et hpt het
  · intro ev dep e pt et h hpt hest het hlo hhi
    have h2 := (hshape ev dep h).2
    rw [hest] at h2
    rw [h2, hdelay dep.planned_departure e pt et hpt het,
      i64_as_i32_of_fits ((et - pt).tdiv 60) hlo hhi]
  · intro ev dep h hcases
    have h2 := (hshape ev dep h).2
    rcases hcases with hnone | hpl | ⟨e, hest, hep⟩
    · rw [hnone] at h2
      exact h2
    · rw [h2]
      rcases hq : dep.planned_departure with a | r
      · rw [hq] at hpl
        exact Option.noConfusion hpl
      · cases hest : dep.estimated_departure with
        | none => rfl
        | some e2 => rfl
    · rw [h2, hest]
      rcases e with b | r
      · exact Option.noConfusion hep
      · rcases hq : dep.planned_departure with a | r2 <;> rfl
  · intro ev dep t h hparse hest
    have h2 := (hshape ev dep h).2
    rw [hest] at h2
    rw [h2, hdelay dep.planned_departure dep.planned_departure t t hparse hparse]
    norm_num [i64_as_i32]

/-- Witness for C6: at `now = 100`, an event planned at 50 is dropped, an
event planned exactly at 100 is kept, and equal planned and estimated
timestamps give a zero delay. -/
theorem c6_witness :
    parse_departure_event "de" 100 ⟨some "3", some "Hbf", some (.valid 50), none, none⟩ = none ∧
    (parse_departure_event "de" 100
        ⟨some "3", some "Hbf", some (.valid 100), some (.valid 100), none⟩).isSome = true ∧
    (⟨"de", "3", "Hbf", .valid 100, some (.valid 100), some 0, none⟩ : Departure).delay_minutes
      = some 0 := by
  have h := c6_departure_parsing "de" 100
  refine ⟨?_, ?_, ?_⟩
  · exact h.1 _ (.valid 50) 50 rfl rfl (by decide)
  · exact h.2.2.1 _ "3" "Hbf" (.valid 100) rfl rfl rfl rfl
  · exact h.2.2.2.2.2.2 ⟨some "3", some "Hbf", some (.valid 100), some (.valid 100), none⟩
      ⟨"de", "3", "Hbf", .valid 100, some (.valid 100), some 0, none⟩ 100 (by decide) rfl rfl

/-! ## Vehicle position tracker (`services/vehicle_positions.rs`) -/

/-- A coordinate pair `[lon, lat]` (f64 values modelled as rationals). -/
def Coord := ℚ × ℚ

instance : DecidableEq Coord := instDecidableEqProd

/-- `Platform` from `services/efa.rs` (the fields read by the tracker). -/
structure EfaPlatform where
  id : String
  name : String
  coord : Option (List ℚ)
  osm_id : Option Int
deriving DecidableEq

/-- `Station` from `services/efa.rs`. -/
structure Station where
  station_id : String
  station_name : String
  coord : Option (List ℚ)
  platforms : List EfaPlatform
deriving DecidableEq

/-- The shared stations map (`HashMap<String, Station>`), modelled as an
association list whose order fixes the `values()` iteration order. -/
def StationMap := List (String × Station)

/-- `HashMap::get` on an association list (first matching key). -/
def alookup {β : Type} (k : String) : List (String × β) → Option β
  | [] => none
  | (k', v) :: rest => if k' = k then some v else alookup k rest

/-- The coordinate conversion done inline in `lookup_station_coordinates`:
an EFA `[lat, lon, ..]` list of length ≥ 2 becomes `[lon, lat]`. -/
def latlonToLonLat (coord : List ℚ) : Option Coord :=
  match coord with
  | lat :: lon :: _ => some (lon, lat)
  | _ => none

/-- The platform scan in `lookup_station_coordinates`: the first platform of
the first station (in iteration order) whose id matches and whose coordinate
list has at least two entries yields the `[lon, lat]` pair. -/
def platformHit (stop_id : String) (p : EfaPlatform) : Option Coord :=
  if p.id = stop_id then p.coord.bind latlonToLonLat else none

/-- `VehiclePositionTracker::lookup_station_coordinates`: direct lookup by
IFOPT, then the platform scan, then the `[0, 0]` fallback. -/
def lookup_station_coordinates (stop_id : String) (stations : StationMap) : Coord :=
  match (alookup stop_id stations).bind (fun station => station.coord.bind latlonToLonLat) with
  | some c => c
  | none =>
    match (stations.map Prod.snd).findSome?
        (fun station => station.platforms.findSome? (platformHit stop_id)) with
    | some c => c
    | none => (0, 0)

/-- Rust `as i64` on a finite `f64`: truncation toward zero. -/
def f64_as_i64 (q : ℚ) : Int := if 0 ≤ q then ⌊q⌋ else ⌈q⌉

/-- `VehicleInfo` from `models.rs`, with the fields the tracker reads. -/
structure VehicleInfo where
  vehicle_id : String
  trip_code : Int
  physical_vehicle_id : Option String
  line_number : String
  destination : String
  origin : Option String
  delay_minutes : Option Int
  last_departure_planned : TimeStr
  current_stop_id : String
  current_stop_name : String
  next_stop_id : Option String
  next_stop_name : Option String
deriving DecidableEq

/-- `TramStatus` from `services/vehicle_positions.rs`. -/
inductive TramStatus where
  | atStation
  | enRoute
  | stale
  | inDepot
deriving DecidableEq

/-- `StopInfo` from `services/vehicle_positions.rs`. -/
structure StopInfo where
  stop_id : String
  stop_name : String
  coordinates : Coord
deriving DecidableEq

/-- `ConfirmedStop` from `services/vehicle_positions.rs`. -/
structure ConfirmedStop where
  stop_id : String
  stop_name : String
  coordinates : Coord
  arrival_time : Int
  departure_time : Option Int
deriving DecidableEq

/-- `SegmentInfo` from `services/vehicle_positions.rs`. -/
structure SegmentInfo where
  from_stop_id : String
  to_stop_id : String
  geometry : List Coord
  length_meters : ℚ
deriving DecidableEq

/-- `TramState` from `services/vehicle_positions.rs`. -/
structure TramState where
  vehicle_id : String
  trip_code : Int
  physical_vehicle_id : Option String
  line_number : String
  destination : String
  origin : Option String
  current_position : Coord
  current_segment : Option SegmentInfo
  progress_on_segment : ℚ
  route_stops : List StopInfo
  current_stop_index : Nat
  last_confirmed_stop : Option ConfirmedStop
  next_confirmed_stop : Option ConfirmedStop
  last_update : Int
  last_seen_in_feed : Int
  status : TramStatus
  delay_minutes : Option Int
deriving DecidableEq

/-- `TramState::from_vehicle_info`. -/
def TramState.from_vehicle_info (vehicle : VehicleInfo) (now : Int) : TramState where
  vehicle_id := vehicle.vehicle_id
  trip_code := vehicle.trip_code
  physical_vehicle_id := vehicle.physical_vehicle_id
  line_number := vehicle.line_number
  destination := vehicle.destination
  origin := vehicle.origin
  current_position := (0, 0)
  current_segment := none
  progress_on_segment := 0
  route_stops := []
  current_stop_index := 0
  last_confirmed_stop := none
  next_confirmed_stop := none
  last_update := now
  last_seen_in_feed := now
  status := .enRoute
  delay_minutes := vehicle.delay_minutes

/-- The next-stop computation shared by both branches of
`update_tram_from_vehicle`: coordinates via station lookup, estimated
arrival as the departure time plus `Duration::minutes` of the travel time at
20 km/h cast with `as i64`, and no departure time. -/
def next_confirmed_from_feed (hav : Coord → Coord → ℚ)
    (from_coordinates : Coord) (departure_time : Int)
    (next_stop_id next_stop_name : String) (stations : StationMap) : ConfirmedStop :=
  let next_coordinates := lookup_station_coordinates next_stop_id stations
  let distance := hav from_coordinates next_coordinates
  let travel_time_minutes := distance / 1000 / 20 * 60
  let estimated_arrival := departure_time + 60 * f64_as_i64 travel_time_minutes
  { stop_id := next_stop_id, stop_name := next_stop_name,
    coordinates := next_coordinates, arrival_time := estimated_arrival,
    departure_time := none }

/-- `VehiclePositionTracker::update_tram_from_vehicle`.  `hav` is the
haversine distance in meters on `[lon, lat]` pairs.  Refresh feed fields;
when the planned departure parses, set status by the truncated minute
difference (`Δ < −5` means waiting at the station), rebuild
`last_confirmed_stop` with arrival = departure = planned, and rebuild
`next_confirmed_stop` when the feed names a next stop (both status branches
perform the same updates apart from the status value). -/
def update_tram_from_vehicle (hav : Coord → Coord → ℚ)
    (tram : TramState) (vehicle : VehicleInfo) (now : Int)
    (stations : StationMap) : TramState :=
  let tram := { tram with last_seen_in_feed := now, delay_minutes := vehicle.delay_minutes }
  let tram :=
    match vehicle.last_departure_planned.parse with
    | none => tram
    | some departure_time =>
      let from_coordinates := lookup_station_coordinates vehicle.current_stop_id stations
      let minutes_since_departure := (now - departure_time).tdiv 60
      let status := if minutes_since_departure < -5 then TramStatus.atStation
                    else TramStatus.enRoute
      let last : ConfirmedStop :=
        { stop_id := vehicle.current_stop_id, stop_name := vehicle.current_stop_name,
          coordinates := from_coordinates, arrival_time := departure_time,
          departure_time := some departure_time }
      let next :=
        match vehicle.next_stop_id, vehicle.next_stop_name with
        | some next_stop_id, some next_stop_name =>
          some (next_confirmed_from_feed hav from_coordinates departure_time
                  next_stop_id next_stop_name stations)
        | _, _ => tram.next_confirmed_stop
      { tram with status := status, last_confirmed_stop := some last,
                  next_confirmed_stop := next }
  { tram with last_update := now }

/-- **C4.** When the planned departure parses, the refreshed status is
`AtStation` exactly when `Δ = now − planned` in truncated minutes is `< −5`
and `EnRoute` otherwise — in particular a departure exactly 5 minutes in the
future gives `EnRoute` — and `last_confirmed_stop` is rebuilt from the
current stop with arrival = departure = planned. -/
theorem c4_status_from_planned_departure (hav : Coord → Coord → ℚ)
    (tram : TramState) (vehicle : VehicleInfo) (now dep : Int)
    (stations : StationMap)
    (hparse : vehicle.last_departure_planned.parse = some dep) :
    ((update_tram_from_vehicle hav tram vehicle now stations).status =
      if (now - dep).tdiv 60 < -5 then TramStatus.atStation else TramStatus.enRoute) ∧
    ((update_tram_from_vehicle hav tram vehicle now stations).last_confirmed_stop =
      some { stop_id := vehicle.current_stop_id, stop_name := vehicle.current_stop_name,
             coordinates := lookup_station_coordinates vehicle.current_stop_id stations,
             arrival_time := dep, departure_time := some dep }) ∧
    (dep = now + 300 →
      (update_tram_from_vehicle hav tram vehicle now stations).status = TramStatus.enRoute) := by
  have hstatus : (update_tram_from_vehicle hav tram vehicle now stations).status =
      if (now - dep).tdiv 60 < -5 then TramStatus.atStation else TramStatus.enRoute := by
    unfold update_tram_from_vehicle
    rw [hparse]
  refine ⟨hstatus, ?_, ?_⟩
  · unfold update_tram_from_vehicle
    rw [hparse]
  · intro heq
    subst heq
    rw [hstatus]
    have hsub : now - (now + 300) = -300 := by ring
    rw [hsub]
    decide

/-- Haversine stub for the C4 witness scenario (its value is irrelevant). -/
def c4ex_hav : Coord → Coord → ℚ := fun _ _ => 0

/-- C4 witness vehicle departing exactly 5 minutes in the future. -/
def c4ex_vehA : VehicleInfo :=
  { vehicle_id := "t4", trip_code := 4, physical_vehicle_id := none,
    line_number := "2", destination := "Ost", origin := none,
    delay_minutes := none, last_departure_planned := .valid 300,
    current_stop_id := "S", current_stop_name := "S",
    next_stop_id := none, next_stop_name := none }

/-- C4 witness vehicle departing 6 minutes in the future. -/
def c4ex_vehB : VehicleInfo :=
  { c4ex_vehA with last_departure_planned := .valid 360 }

/-- Witness for C4 at `now = 0`: planned = +300 s gives `EnRoute` (boundary),
planned = +360 s gives `AtStation`, and the confirmed stop carries
arrival = departure = planned. -/
theorem c4_witness :
    (update_tram_from_vehicle c4ex_hav (TramState.from_vehicle_info c4ex_vehA 0)
        c4ex_vehA 0 []).status = TramStatus.enRoute ∧
    (update_tram_from_vehicle c4ex_hav (TramState.from_vehicle_info c4ex_vehB 0)
        c4ex_vehB 0 []).status = TramStatus.atStation ∧
    (update_tram_from_vehicle c4ex_hav (TramState.from_vehicle_info c4ex_vehA 0)
        c4ex_vehA 0 []).last_confirmed_stop =
      some { stop_id := "S", stop_name := "S", coordinates := (0, 0),
             arrival_time := 300, departure_time := some 300 } := by
  have hA := c4_status_from_planned_departure c4ex_hav
    (TramState.from_vehicle_info c4ex_vehA 0) c4ex_vehA 0 300 [] rfl
  have hB := c4_status_from_planned_departure c4ex_hav
    (TramState.from_vehicle_info c4ex_vehB 0) c4ex_vehB 0 360 [] rfl
  refine ⟨hA.2.2 rfl, ?_, ?_⟩
  · rw [hB.1]
    decide
  · rw [hA.2.1]
    decide

/-- Haversine stub for the C3 scenario: the two stops are 400 m apart. -/
def c3ex_hav : Coord → Coord → ℚ := fun _ _ => 400

/-- C3 vehicle: departs stop `S` at instant 0, next stop `T`. -/
def c3ex_vehicle : VehicleInfo :=
  { vehicle_id := "t3", trip_code := 3, physical_vehicle_id := none,
    line_number := "1", destination := "Endhalt", origin := none,
    delay_minutes := none, last_departure_planned := .valid 0,
    current_stop_id := "S", current_stop_name := "S",
    next_stop_id := some "T", next_stop_name := some "T" }

/-- **C3 counterexample.**  For a 400 m distance at 20 km/h the claimed
arrival is planned + 72 s (1.2 min); the code truncates the travel time to
whole minutes with `as i64` before `Duration::minutes`, so the stored
arrival is planned + 60 s. -/
theorem c3_counterexample :
    ((update_tram_from_vehicle c3ex_hav (TramState.from_vehicle_info c3ex_vehicle 0)
        c3ex_vehicle 0 []).next_confirmed_stop.map ConfirmedStop.arrival_time) = some 60 ∧
    ((400 : ℚ) / 1000 / 20 * 3600) = 72 ∧ (60 : Int) ≠ 72 := by
  refine ⟨?_, by norm_num, by decide⟩
  have h1 : (update_tram_from_vehicle c3ex_hav (TramState.from_vehicle_info c3ex_vehicle 0)
      c3ex_vehicle 0 []).next_confirmed_stop =
      some (next_confirmed_from_feed c3ex_hav (0, 0) 0 "T" "T" []) := rfl
  rw [h1]
  have h2 : (next_confirmed_from_feed c3ex_hav (0, 0) 0 "T" "T" []).arrival_time =
      0 + 60 * f64_as_i64 ((400 : ℚ) / 1000 / 20 * 60) := rfl
  simp only [Option.map_some', h2]
  norm_num [f64_as_i64]

/-- **C3 amended.**  When the feed names a next stop and the planned
departure parses, `next_confirmed_stop` is rebuilt with
`arrival_time = planned + 60 · trunc(distance_km / 20 · 60)` — the travel
time at 20 km/h truncated to whole minutes — and `departure_time = none`. -/
theorem c3_next_stop_arrival (hav : Coord → Coord → ℚ)
    (tram : TramState) (vehicle : VehicleInfo) (now dep : Int)
    (stations : StationMap) (nid nname : String)
    (hparse : vehicle.last_departure_planned.parse = some dep)
    (hnid : vehicle.next_stop_id = some nid)
    (hnname : vehicle.next_stop_name = some nname) :
    (update_tram_from_vehicle hav tram vehicle now stations).next_confirmed_stop =
      some { stop_id := nid, stop_name := nname,
             coordinates := lookup_station_coordinates nid stations,
             arrival_time := dep + 60 * f64_as_i64
               (hav (lookup_station_coordinates vehicle.current_stop_id stations)
                    (lookup_station_coordinates nid stations) / 1000 / 20 * 60),
             departure_time := none } := by
  unfold update_tram_from_vehicle
  rw [hparse, hnid, hnname]
  rfl

/-- Witness for the amended C3: at 400 m the arrival is exactly one minute
after the planned departure. -/
theorem c3_witness :
    (update_tram_from_vehicle c3ex_hav (TramState.from_vehicle_info c3ex_vehicle 0)
        c3ex_vehicle 0 []).next_confirmed_stop =
      some { stop_id := "T", stop_name := "T", coordinates := (0, 0),
             arrival_time := 60, departure_time := none } := by
  have h := c3_next_stop_arrival c3ex_hav (TramState.from_vehicle_info c3ex_vehicle 0)
    c3ex_vehicle 0 0 [] "T" "T" rfl rfl rfl
  rw [h]
  have hcoord : lookup_station_coordinates "T" [] = (0, 0) := rfl
  have hval : f64_as_i64 (c3ex_hav (lookup_station_coordinates c3ex_vehicle.current_stop_id [])
      (lookup_station_coordinates "T" []) / 1000 / 20 * 60) = 1 := by
    show f64_as_i64 ((400 : ℚ) / 1000 / 20 * 60) = 1
    norm_num [f64_as_i64]
  rw [hval, hcoord]
  norm_num

/-! ## Geometry extraction -/

/-- The accept condition of the scan loop in
`VehiclePositionTracker::find_closest_point_index`:
`distance < min_distance && distance < max_distance`, with `none` modelling
the initial `min_distance = f64::INFINITY`. -/
def closest_accept (d max_distance : ℚ) : Option (Nat × ℚ) → Bool
  | none => decide (d < max_distance)
  | some b => decide (d < b.2) && decide (d < max_distance)

/-- The scan loop of `VehiclePositionTracker::find_closest_point_index`,
carrying the index of the next point and the current best
`(closest_index, min_distance)` pair. -/
def find_closest_go (hav : Coord → Coord → ℚ) (target : Coord) (max_distance : ℚ) :
    List Coord → Nat → Option (Nat × ℚ) → Option (Nat × ℚ)
  | [], _, best => best
  | p :: ps, i, best =>
    if closest_accept (hav p target) max_distance best then
      find_closest_go hav target max_distance ps (i + 1) (some (i, hav p target))
    else
      find_closest_go hav target max_distance ps (i + 1) best

/-- `VehiclePositionTracker::find_closest_point_index`. -/
def find_closest_point_index (hav : Coord → Coord → ℚ) (points : List Coord)
    (target : Coord) (max_distance : ℚ) : Option Nat :=
  (find_closest_go hav target max_distance points 0 none).map Prod.fst

/-- `VehiclePositionTracker::extract_geometry_segment`.  `line_geometries`
is the tracker's `line_number → segments` map. -/
def extract_geometry_segment (hav : Coord → Coord → ℚ)
    (line_geometries : List (String × List (List Coord)))
    (from_station_id to_station_id line_number : String)
    (stations : StationMap) : List Coord :=
  match alookup line_number line_geometries with
  | none => []
  | some line_segments =>
    let from_coord := lookup_station_coordinates from_station_id stations
    let to_coord := lookup_station_coordinates to_station_id stations
    if from_coord = (0, 0) ∨ to_coord = (0, 0) then []
    else
      let all_points := line_segments.flatten
      match find_closest_point_index hav all_points from_coord 500,
            find_closest_point_index hav all_points to_coord 500 with
      | some from_idx, some to_idx =>
        if from_idx < to_idx then (all_points.drop from_idx).take (to_idx - from_idx + 1)
        else if to_idx < from_idx then
          ((all_points.drop to_idx).take (from_idx - to_idx + 1)).reverse
        else [from_coord, to_coord]
      | _, _ => []

/-- `closest_accept` holds exactly when the distance beats both the current
minimum and the 500 m bound. -/
theorem closest_accept_iff (d max_distance : ℚ) (best : Option (Nat × ℚ)) :
    closest_accept d max_distance best = true ↔
      d < max_distance ∧ ∀ b : Nat × ℚ, best = some b → d < b.2 := by
  cases best with
  | none =>
    simp only [closest_accept, decide_eq_true_eq]
    constructor
    · intro h
      exact ⟨h, fun b hb => Option.noConfusion hb⟩
    · intro h
      exact h.1
  | some b =>
    simp only [closest_accept, Bool.and_eq_true, decide_eq_true_eq]
    constructor
    · intro h
      refine ⟨h.2, fun b' hb' => ?_⟩
      injection hb' with hb'
      rw [← hb']
      exact h.1
    · intro h
      exact ⟨h.2 b rfl, h.1⟩

/-- If no point is strictly within the bound, the scan never updates
its accumulator. -/
theorem find_closest_go_skip (hav : Coord → Coord → ℚ) (target : Coord) (max_distance : ℚ) :
    ∀ ps : List Coord, ∀ i best, (∀ q ∈ ps, ¬ hav q target < max_distance) →
      find_closest_go hav target max_distance ps i best = best := by
  intro ps
  induction ps with
  | nil => intro i best _; rfl
  | cons p ps ih =>
    intro i best h
    have hp : ¬ hav p target < max_distance := h p (List.mem_cons_self p ps)
    have hacc : closest_accept (hav p target) max_distance best = false := by
      rw [← Bool.not_eq_true]
      intro hc
      exact hp ((closest_accept_iff _ _ _).mp hc).1
    unfold find_closest_go
    rw [hacc]
    simp only [Bool.false_eq_true, if_false]
    exact ih (i + 1) best (fun q hq => h q (List.mem_cons_of_mem p hq))

/-- The distance of the scan result is below the bound and minimal among
the scanned points and the incoming accumulator. -/
theorem find_closest_go_min (hav : Coord → Coord → ℚ) (target : Coord) (max_distance : ℚ) :
    ∀ ps : List Coord, ∀ i best j d,
      find_closest_go hav target max_distance ps i best = some (j, d) →
      (∀ b : Nat × ℚ, best = some b → b.2 < max_distance) →
      d < max_distance ∧ (∀ q ∈ ps, d ≤ hav q target) ∧
        (∀ b : Nat × ℚ, best = some b → d ≤ b.2) := by
  intro ps
  induction ps with
  | nil =>
    intro i best j d h hb
    have hbest : best = some (j, d) := h
    refine ⟨hb _ hbest, fun q hq => absurd hq (List.not_mem_nil q), fun b hbb => ?_⟩
    rw [hbest] at hbb
    injection hbb with hbb
    rw [← hbb]
  | cons p ps ih =>
    intro i best j d h hb
    unfold find_closest_go at h
    by_cases hacc : closest_accept (hav p target) max_distance best = true
    · rw [hacc] at h
      simp only [if_true] at h
      obtain ⟨haccd, haccb⟩ := (closest_accept_iff _ _ _).mp hacc
      obtain ⟨h1, h2, h3⟩ := ih (i + 1) (some (i, hav p target)) j d h
        (by intro b hbb; injection hbb with hbb; rw [← hbb]; exact haccd)
      have hdp : d ≤ hav p target := h3 (i, hav p target) rfl
      refine ⟨h1, ?_, ?_⟩
      · intro q hq
        rcases List.mem_cons.mp hq with heq | hq'
        · rw [heq]
          exact hdp
        · exact h2 q hq'
      · intro b hbb
        exact le_of_lt (lt_of_le_of_lt hdp (haccb b hbb))
    · rw [Bool.not_eq_true] at hacc
      rw [hacc] at h
      simp only [Bool.false_eq_true, if_false] at h
      obtain ⟨h1, h2, h3⟩ := ih (i + 1) best j d h hb
      refine ⟨h1, ?_, h3⟩
      intro q hq
      rcases List.mem_cons.mp hq with heq | hq'
      · rw [heq]
        have hnot := (closest_accept_iff (hav p target) max_distance best).not.mp
          (by rw [hacc]; exact Bool.false_ne_true)
        push_neg at hnot
        rcases lt_or_le (hav p target) max_distance with hlt | hge
        · obtain ⟨b, hbb, hble⟩ := hnot hlt
          exact le_trans (h3 b hbb) hble
        · exact le_trans h1.le hge
      · exact h2 q hq'

/-- The scan result is either the incoming accumulator or a scanned point
with its index and distance. -/
theorem find_closest_go_mem (hav : Coord → Coord → ℚ) (target : Coord) (max_distance : ℚ) :
    ∀ ps : List Coord, ∀ i best j d,
      find_closest_go hav target max_distance ps i best = some (j, d) →
      best = some (j, d) ∨
        ∃ m p, ps.get? m = some p ∧ j = i + m ∧ hav p target = d := by
  intro ps
  induction ps with
  | nil =>
    intro i best j d h
    exact Or.inl h
  | cons p ps ih =>
    intro i best j d h
    unfold find_closest_go at h
    by_cases hacc : closest_accept (hav p target) max_distance best = true
    · rw [hacc] at h
      simp only [if_true] at h
      rcases ih (i + 1) (some (i, hav p target)) j d h with heq | ⟨m, q, hg, hj, hd⟩
      · injection heq with heq
        have hji : i = j := congrArg Prod.fst heq
        have hdd : hav p target = d := congrArg Prod.snd heq
        exact Or.inr ⟨0, p, rfl, by omega, hdd⟩
      · exact Or.inr ⟨m + 1, q, hg, by omega, hd⟩
    · rw [Bool.not_eq_true] at hacc
      rw [hacc] at h
      simp only [Bool.false_eq_true, if_false] at h
      rcases ih (i + 1) best j d h with heq | ⟨m, q, hg, hj, hd⟩
      · exact Or.inl heq
      · exact Or.inr ⟨m + 1, q, hg, by omega, hd⟩

/-- When every point is at distance ≥ the bound, the search returns `none`. -/
theorem find_closest_point_index_none (hav : Coord → Coord → ℚ) (points : List Coord)
    (target : Coord) (max_distance : ℚ)
    (h : ∀ q ∈ points, ¬ hav q target < max_distance) :
    find_closest_point_index hav points target max_distance = none := by
  unfold find_closest_point_index
  rw [find_closest_go_skip hav target max_distance points 0 none h]
  rfl

/-- A returned index points at a polyline point strictly within the bound
whose distance is minimal over the whole polyline. -/
theorem find_closest_point_index_spec (hav : Coord → Coord → ℚ) (points : List Coord)
    (target : Coord) (max_distance : ℚ) (idx : Nat)
    (h : find_closest_point_index hav points target max_distance = some idx) :
    ∃ p, points.get? idx = some p ∧ hav p target < max_distance ∧
      ∀ q ∈ points, hav p target ≤ hav q target := by
  unfold find_closest_point_index at h
  cases hgo : find_closest_go hav target max_distance points 0 none with
  | none =>
    rw [hgo] at h
    exact Option.noConfusion h
  | some jd =>
    obtain ⟨j, d⟩ := jd
    rw [hgo] at h
    injection h with h
    subst h
    have hmin := find_closest_go_min hav target max_distance points 0 none j d hgo
      (by intro b hb; exact Option.noConfusion hb)
    rcases find_closest_go_mem hav target max_distance points 0 none j d hgo with
      heq | ⟨m, p, hg, hj, hd⟩
    · exact Option.noConfusion heq
    · refine ⟨p, ?_, ?_, ?_⟩
      · rw [hj]
        simpa using hg
      · rw [hd]
        exact hmin.1
      · intro q hq
        rw [hd]
        exact hmin.2.1 q hq

/-- **C7.** Geometry extraction returns empty when the line has no geometry,
when either endpoint coordinate resolves to `[0, 0]`, or when either endpoint
has no concatenated-polyline point strictly within 500 m; otherwise it
returns the polyline slice between the two nearest indices — as-is for
`from < to`, reversed for `from > to`, and the two endpoint coordinates when
they are equal. -/
theorem c7_geometry_extraction (hav : Coord → Coord → ℚ)
    (line_geometries : List (String × List (List Coord)))
    (from_station_id to_station_id line_number : String) (stations : StationMap) :
    (alookup line_number line_geometries = none →
      extract_geometry_segment hav line_geometries from_station_id to_station_id
        line_number stations = []) ∧
    (lookup_station_coordinates from_station_id stations = (0, 0) ∨
        lookup_station_coordinates to_station_id stations = (0, 0) →
      extract_geometry_segment hav line_geometries from_station_id to_station_id
        line_number stations = []) ∧
    (∀ segs, alookup line_number line_geometries = some segs →
      ((∀ q ∈ segs.flatten,
          ¬ hav q (lookup_station_coordinates from_station_id stations) < 500) ∨
       (∀ q ∈ segs.flatten,
          ¬ hav q (lookup_station_coordinates to_station_id stations) < 500)) →
      extract_geometry_segment hav line_geometries from_station_id to_station_id
        line_number stations = []) ∧
    (∀ points target idx, find_closest_point_index hav points target 500 = some idx →
      ∃ p, points.get? idx = some p ∧ hav p target < 500 ∧
        ∀ q ∈ points, hav p target ≤ hav q target) ∧
    (∀ segs i j, alookup line_number line_geometries = some segs →
      ¬ (lookup_station_coordinates from_station_id stations = (0, 0) ∨
         lookup_station_coordinates to_station_id stations = (0, 0)) →
      find_closest_point_index hav segs.flatten
        (lookup_station_coordinates from_station_id stations) 500 = some i →
      find_closest_point_index hav segs.flatten
        (lookup_station_coordinates to_station_id stations) 500 = some j →
      extract_geometry_segment hav line_geometries from_station_id to_station_id
        line_number stations =
        (if i < j then (segs.flatten.drop i).take (j - i + 1)
         else if j < i then ((segs.flatten.drop j).take (i - j + 1)).reverse
         else [lookup_station_coordinates from_station_id stations,
               lookup_station_coordinates to_station_id stations])) := by
  refine ⟨?_, ?_, ?_, ?_, ?_⟩
  · intro h
    unfold extract_geometry_segment
    rw [h]
  · intro h
    unfold extract_geometry_segment
    cases halk : alookup line_number line_geometries with
    | none => rfl
    | some segs =>
      dsimp only
      rw [if_pos h]
  · intro segs hsegs hfar
    unfold extract_geometry_segment
    rw [hsegs]
    dsimp only
    by_cases hz : lookup_station_coordinates from_station_id stations = (0, 0) ∨
        lookup_station_coordinates to_station_id stations = (0, 0)
    · rw [if_pos hz]
    · rw [if_neg hz]
      rcases hfar with hfar | hfar
      · rw [find_closest_point_index_none hav segs.flatten _ 500 hfar]
      · rw [find_closest_point_index_none hav segs.flatten _ 500 hfar]
        cases find_closest_point_index hav segs.flatten
            (lookup_station_coordinates from_station_id stations) 500 with
        | none => rfl
        | some i => rfl
  · intro points target idx h
    exact find_closest_point_index_spec hav points target 500 idx h
  · intro segs i j hsegs hz hfi htj
    unfold extract_geometry_segment
    rw [hsegs]
    dsimp only
    rw [if_neg hz, hfi, htj]

/-- Witness distance for the C7 scenario: 0 for identical points and 600 m
otherwise, so only the exact polyline vertex of each endpoint is in range. -/
def c7ex_hav : Coord → Coord → ℚ := fun p q => if p = q then 0 else 600

/-- Stations `A` at `[lat 1, lon 2]` and `B` at `[lat 1, lon 3]`. -/
def c7ex_stations : StationMap :=
  [("A", { station_id := "A", station_name := "A", coord := some [1, 2], platforms := [] }),
   ("B", { station_id := "B", station_name := "B", coord := some [1, 3], platforms := [] })]

/-- Line `L`: two segments concatenating to `[(2,1), (5,1), (3,1)]`. -/
def c7ex_geo : List (String × List (List Coord)) :=
  [("L", [[(2, 1), (5, 1)], [(3, 1)]])]

/-- Witness for C7: forward slice, reversed slice, and the missing line. -/
theorem c7_witness :
    extract_geometry_segment c7ex_hav c7ex_geo "A" "B" "L" c7ex_stations =
      [(2, 1), (5, 1), (3, 1)] ∧
    extract_geometry_segment c7ex_hav c7ex_geo "B" "A" "L" c7ex_stations =
      [(3, 1), (5, 1), (2, 1)] ∧
    extract_geometry_segment c7ex_hav c7ex_geo "A" "B" "M" c7ex_stations = [] := by
  have h1 := c7_geometry_extraction c7ex_hav c7ex_geo "A" "B" "L" c7ex_stations
  have h2 := c7_geometry_extraction c7ex_hav c7ex_geo "B" "A" "L" c7ex_stations
  have h3 := c7_geometry_extraction c7ex_hav c7ex_geo "A" "B" "M" c7ex_stations
  refine ⟨?_, ?_, ?_⟩
  · exact (h1.2.2.2.2 [[(2, 1), (5, 1)], [(3, 1)]] 0 2 (by decide) (by decide)
      (by decide) (by decide)).trans (by decide)
  · exact (h2.2.2.2.2 [[(2, 1), (5, 1)], [(3, 1)]] 2 0 (by decide) (by decide)
      (by decide) (by decide)).trans (by decide)
  · exact h3.1 (by decide)

/-! ## Position calculation -/

/-- `f64::clamp(0.0, 1.0)`. -/
def clamp01 (x : ℚ) : ℚ := if x < 0 then 0 else if 1 < x then 1 else x

/-- `VehiclePosition` from `models.rs` (timestamps as instants). -/
structure VehiclePosition where
  vehicle_id : String
  line_number : String
  line_name : String
  destination : String
  progress : ℚ
  from_station_id : String
  to_station_id : String
  geometry_segment : List Coord
  departure_time : Int
  arrival_time : Int
  delay : Option Int
  calculated_at : Int
deriving DecidableEq

/-- `VehiclePositionTracker::calculate_tram_position`: `AtStation` emits
progress 0 when both anchors exist; `EnRoute` needs both anchors and a
departure time and emits the clamped time interpolation (0 when the total
time is not positive); `Stale` and `InDepot` emit nothing. -/
def calculate_tram_position (hav : Coord → Coord → ℚ)
    (line_geometries : List (String × List (List Coord)))
    (tram : TramState) (now : Int) (stations : StationMap) : Option VehiclePosition :=
  match tram.status with
  | .atStation =>
    match tram.last_confirmed_stop, tram.next_confirmed_stop with
    | some confirmed, some next =>
      some { vehicle_id := tram.vehicle_id, line_number := tram.line_number,
             line_name := "Straßenbahn " ++ tram.line_number,
             destination := tram.destination, progress := 0,
             from_station_id := confirmed.stop_id, to_station_id := next.stop_id,
             geometry_segment := extract_geometry_segment hav line_geometries
               confirmed.stop_id next.stop_id tram.line_number stations,
             departure_time := confirmed.arrival_time,
             arrival_time := next.arrival_time,
             delay := tram.delay_minutes, calculated_at := now }
    | _, _ => none
  | .enRoute =>
    match tram.last_confirmed_stop, tram.next_confirmed_stop with
    | some f, some t =>
      match f.departure_time with
      | some fd =>
        some { vehicle_id := tram.vehicle_id, line_number := tram.line_number,
               line_name := "Straßenbahn " ++ tram.line_number,
               destination := tram.destination,
               progress :=
                 if 0 < ((t.arrival_time - fd : Int) : ℚ) then
                   clamp01 (((now - fd : Int) : ℚ) / ((t.arrival_time - fd : Int) : ℚ))
                 else 0,
               from_station_id := f.stop_id, to_station_id := t.stop_id,
               geometry_segment := extract_geometry_segment hav line_geometries
                 f.stop_id t.stop_id tram.line_number stations,
               departure_time := fd, arrival_time := t.arrival_time,
               delay := tram.delay_minutes, calculated_at := now }
      | none => none
    | _, _ => none
  | .stale => none
  | .inDepot => none

/-- `clamp01` always lands in `[0, 1]`. -/
theorem clamp01_bounds (x : ℚ) : 0 ≤ clamp01 x ∧ clamp01 x ≤ 1 := by
  unfold clamp01
  split_ifs with h1 h2
  · exact ⟨le_refl 0, zero_le_one⟩
  · exact ⟨zero_le_one, le_refl 1⟩
  · exact ⟨not_lt.mp h1, not_lt.mp h2⟩

/-- **C5.** An `EnRoute` tram with both anchors and a departure time emits a
position whose progress is `clamp((now − last.departure) / (next.arrival −
last.departure), 0, 1)` when the denominator is positive and 0 otherwise;
every emitted `EnRoute` position has progress in `[0, 1]`; every emitted
`AtStation` position has progress 0. -/
theorem c5_enroute_progress (hav : Coord → Coord → ℚ)
    (line_geometries : List (String × List (List Coord)))
    (tram : TramState) (now : Int) (stations : StationMap) :
    (∀ f t fd, tram.status = TramStatus.enRoute →
      tram.last_confirmed_stop = some f → tram.next_confirmed_stop = some t →
      f.departure_time = some fd →
      ∃ pos, calculate_tram_position hav line_geometries tram now stations = some pos ∧
        pos.progress =
          (if 0 < ((t.arrival_time - fd : Int) : ℚ) then
            clamp01 (((now - fd : Int) : ℚ) / ((t.arrival_time - fd : Int) : ℚ))
          else 0)) ∧
    (∀ pos, calculate_tram_position hav line_geometries tram now stations = some pos →
      tram.status = TramStatus.enRoute → 0 ≤ pos.progress ∧ pos.progress ≤ 1) ∧
    (∀ pos, calculate_tram_position hav line_geometries tram now stations = some pos →
      tram.status = TramStatus.atStation → pos.progress = 0) := by
  refine ⟨?_, ?_, ?_⟩
  · intro f t fd hst hl hn hfd
    unfold calculate_tram_position
    rw [hst, hl, hn]
    dsimp only
    rw [hfd]
    exact ⟨_, rfl, rfl⟩
  · intro pos h hst
    unfold calculate_tram_position at h
    rw [hst] at h
    cases hl : tram.last_confirmed_stop with
    | none => rw [hl] at h; exact Option.noConfusion h
    | some f =>
    cases hn : tram.next_confirmed_stop with
    | none => rw [hl, hn] at h; exact Option.noConfusion h
    | some t =>
    cases hfd : f.departure_time with
    | none =>
      rw [hl, hn] at h
      dsimp only at h
      rw [hfd] at h
      exact Option.noConfusion h
    | some fd =>
      rw [hl, hn] at h
      dsimp only at h
      rw [hfd] at h
      injection h with h
      subst h
      dsimp only
      split_ifs with hpos
      · exact clamp01_bounds _
      · exact ⟨le_refl 0, zero_le_one⟩
  · intro pos h hst
    unfold calculate_tram_position at h
    rw [hst] at h
    cases hl : tram.last_confirmed_stop with
    | none => rw [hl] at h; exact Option.noConfusion h
    | some f =>
    cases hn : tram.next_confirmed_stop with
    | none => rw [hl, hn] at h; exact Option.noConfusion h
    | some t =>
      rw [hl, hn] at h
      injection h with h
      subst h
      rfl

/-- C5 witness tram: departed stop `S` at instant 0, next arrival at 120. -/
def c5ex_tram : TramState :=
  { vehicle_id := "t5", trip_code := 5, physical_vehicle_id := none,
    line_number := "6", destination := "Nord", origin := none,
    current_position := (0, 0), current_segment := none, progress_on_segment := 0,
    route_stops := [], current_stop_index := 0,
    last_confirmed_stop := some
      { stop_id := "S", stop_name := "S", coordinates := (1, 1),
        arrival_time := 0, departure_time := some 0 },
    next_confirmed_stop := some
      { stop_id := "T", stop_name := "T", coordinates := (2, 2),
        arrival_time := 120, departure_time := none },
    last_update := 0, last_seen_in_feed := 0,
    status := .enRoute, delay_minutes := none }

/-- Witness for C5: 30 s into a 120 s leg the emitted progress is 1/4. -/
theorem c5_witness :
    ∃ pos, calculate_tram_position (fun _ _ => 0) [] c5ex_tram 30 [] = some pos ∧
      pos.progress = 1 / 4 := by
  obtain ⟨pos, hpos, hprog⟩ := (c5_enroute_progress (fun _ _ => 0) [] c5ex_tram 30 []).1
    { stop_id := "S", stop_name := "S", coordinates := (1, 1),
      arrival_time := 0, departure_time := some 0 }
    { stop_id := "T", stop_name := "T", coordinates := (2, 2),
      arrival_time := 120, departure_time := none }
    0 rfl rfl rfl rfl
  refine ⟨pos, hpos, ?_⟩
  rw [hprog]
  norm_num [clamp01]

/-! ## The tracker tick (`VehiclePositionTracker::update`) -/

/-- The tracked-trams map (`HashMap<String, TramState>`), as an association
list with pairwise-distinct keys. -/
abbrev TramMap := List (String × TramState)

/-- In-place update of the entry with the given key (`HashMap::get_mut`). -/
def assocUpdate (k : String) (f : TramState → TramState) : TramMap → TramMap
  | [] => []
  | (k', v) :: rest =>
    if k' = k then (k', f v) :: rest else (k', v) :: assocUpdate k f rest

/-- Step 1 of `VehiclePositionTracker::update` for one feed entry: refresh
the tracked tram when present, insert `TramState::from_vehicle_info`
otherwise. -/
def apply_vehicle (hav : Coord → Coord → ℚ) (stations : StationMap) (now : Int)
    (trams : TramMap) (entry : String × VehicleInfo) : TramMap :=
  if (alookup entry.1 trams).isSome then
    assocUpdate entry.1 (fun t => update_tram_from_vehicle hav t entry.2 now stations) trams
  else
    trams ++ [(entry.1, TramState.from_vehicle_info entry.2 now)]

/-- `VehiclePositionTracker::handle_missing_trams` for one tracked entry:
feed entries stay, absences of `0..=60` truncated minutes become `Stale`
(the `0..=20` and `21..=60` arms both assign `Stale`), anything else is
removed. -/
def missing_update (vehicles : List (String × VehicleInfo)) (now : Int)
    (entry : String × TramState) : Option (String × TramState) :=
  if (alookup entry.1 vehicles).isSome then some entry
  else
    let m := (now - entry.2.last_seen_in_feed).tdiv 60
    if 0 ≤ m ∧ m ≤ 60 then some (entry.1, { entry.2 with status := .stale })
    else none

/-- `VehiclePositionTracker::handle_missing_trams`. -/
def handle_missing_trams (vehicles : List (String × VehicleInfo)) (now : Int)
    (trams : TramMap) : TramMap :=
  trams.filterMap (missing_update vehicles now)

/-- Steps 1, 2, 4 and 5 of `VehiclePositionTracker::update` (step 3,
`apply_constraints`, only logs and changes no state): refresh/insert from
the snapshot, handle missing trams, then compute the positions map, skipping
`InDepot` trams and trams whose position calculation returns nothing. -/
def tracker_update (hav : Coord → Coord → ℚ)
    (line_geometries : List (String × List (List Coord)))
    (vehicles : List (String × VehicleInfo)) (stations : StationMap) (now : Int)
    (trams : TramMap) : TramMap × List (String × VehiclePosition) :=
  let trams := vehicles.foldl (apply_vehicle hav stations now) trams
  let trams := handle_missing_trams vehicles now trams
  let positions := trams.filterMap (fun e =>
    if e.2.status = TramStatus.inDepot then none
    else (calculate_tram_position hav line_geometries e.2 now stations).map
      (fun p => (e.1, p)))
  (trams, positions)

/-- `alookup` misses exactly the keys outside the list. -/
theorem alookup_eq_none_iff {β : Type} (k : String) (l : List (String × β)) :
    alookup k l = none ↔ k ∉ l.map Prod.fst := by
  induction l with
  | nil => simp [alookup]
  | cons e rest ih =>
    obtain ⟨k', v⟩ := e
    simp only [alookup, List.map_cons, List.mem_cons, not_or]
    by_cases hk : k' = k
    · simp [hk]
    · simp only [if_neg hk, ih]
      constructor
      · intro h
        exact ⟨fun hc => hk hc.symm, h⟩
      · intro h
        exact h.2

/-- A present key makes `alookup` hit. -/
theorem alookup_isSome_of_mem {β : Type} (k : String) (v : β)
    (l : List (String × β)) (h : (k, v) ∈ l) : (alookup k l).isSome = true := by
  induction l with
  | nil => cases h
  | cons e rest ih =>
    obtain ⟨k', v'⟩ := e
    rcases List.mem_cons.mp h with heq | hrest
    · injection heq with h1 h2
      simp [alookup, h1]
    · by_cases hk : k' = k
      · simp [alookup, hk]
      · simpa [alookup, hk] using ih hrest

/-- With distinct keys an association list determines values uniquely. -/
theorem mem_unique_of_nodup {β : Type} (k : String) (a b : β)
    (l : List (String × β)) (hnd : (l.map Prod.fst).Nodup)
    (ha : (k, a) ∈ l) (hb : (k, b) ∈ l) : a = b := by
  induction l with
  | nil => cases ha
  | cons e rest ih =>
    simp only [List.map_cons, List.nodup_cons] at hnd
    rcases List.mem_cons.mp ha with hae | har <;> rcases List.mem_cons.mp hb with hbe | hbr
    · rw [← hae] at hbe
      injection hbe with _ h2
      exact h2.symm
    · exfalso
      apply hnd.1
      rw [show e.1 = k from (congrArg Prod.fst hae).symm]
      exact List.mem_map_of_mem Prod.fst hbr
    · exfalso
      apply hnd.1
      rw [show e.1 = k from (congrArg Prod.fst hbe).symm]
      exact List.mem_map_of_mem Prod.fst har
    · exact ih hnd.2 har hbr

/-- `assocUpdate` keeps the key list unchanged. -/
theorem assocUpdate_map_fst (k : String) (f : TramState → TramState) (l : TramMap) :
    (assocUpdate k f l).map Prod.fst = l.map Prod.fst := by
  induction l with
  | nil => rfl
  | cons e rest ih =>
    obtain ⟨k', v⟩ := e
    by_cases hk : k' = k
    · simp [assocUpdate, hk]
    · simp [assocUpdate, hk, ih]

/-- `assocUpdate` leaves entries with other keys untouched. -/
theorem assocUpdate_mem_ne (k vid : String) (f : TramState → TramState)
    (l : TramMap) (t : TramState) (hne : vid ≠ k) :
    (vid, t) ∈ assocUpdate k f l ↔ (vid, t) ∈ l := by
  induction l with
  | nil => exact Iff.rfl
  | cons e rest ih =>
    obtain ⟨k', v⟩ := e
    by_cases hk : k' = k
    · simp only [assocUpdate, if_pos hk, List.mem_cons]
      constructor
      · rintro (heq | hrest)
        · exfalso
          exact hne ((congrArg Prod.fst heq).trans hk)
        · exact Or.inr hrest
      · rintro (heq | hrest)
        · exfalso
          exact hne ((congrArg Prod.fst heq).trans hk)
        · exact Or.inr hrest
    · simp only [assocUpdate, if_neg hk, List.mem_cons, ih]

/-- Every entry after `assocUpdate` is an old entry or the updated image of
an old entry with the same key. -/
theorem assocUpdate_mem_elim (k : String) (f : TramState → TramState)
    (l : TramMap) (e : String × TramState) (h : e ∈ assocUpdate k f l) :
    e ∈ l ∨ ∃ v, (e.1, v) ∈ l ∧ e.2 = f v := by
  induction l with
  | nil => cases h
  | cons x rest ih =>
    obtain ⟨k', v⟩ := x
    by_cases hk : k' = k
    · rw [assocUpdate, if_pos hk] at h
      rcases List.mem_cons.mp h with heq | hrest
      · subst heq
        exact Or.inr ⟨v, List.mem_cons_self _ _, rfl⟩
      · exact Or.inl (List.mem_cons_of_mem _ hrest)
    · rw [assocUpdate, if_neg hk] at h
      rcases List.mem_cons.mp h with heq | hrest
      · exact Or.inl (heq ▸ List.mem_cons_self _ _)
      · rcases ih hrest with h1 | ⟨w, hw, hfw⟩
        · exact Or.inl (List.mem_cons_of_mem _ h1)
        · exact Or.inr ⟨w, List.mem_cons_of_mem _ hw, hfw⟩

/-- Refreshing a tram from the feed leaves the status unchanged
(unparseable departure) or sets `AtStation` or `EnRoute`. -/
theorem update_tram_status_cases (hav : Coord → Coord → ℚ) (tram : TramState)
    (vehicle : VehicleInfo) (now : Int) (stations : StationMap) :
    (update_tram_from_vehicle hav tram vehicle now stations).status = tram.status ∨
    (update_tram_from_vehicle hav tram vehicle now stations).status = TramStatus.atStation ∨
    (update_tram_from_vehicle hav tram vehicle now stations).status = TramStatus.enRoute := by
  unfold update_tram_from_vehicle
  cases hparse : vehicle.last_departure_planned.parse with
  | none => exact Or.inl rfl
  | some dep =>
    dsimp only
    by_cases hlt : (now - dep).tdiv 60 < -5
    · rw [if_pos hlt]
      exact Or.inr (Or.inl rfl)
    · rw [if_neg hlt]
      exact Or.inr (Or.inr rfl)

/-- Keys not in the feed are untouched by the update/insert pass. -/
theorem foldl_apply_vehicle_untouched (hav : Coord → Coord → ℚ)
    (stations : StationMap) (now : Int) :
    ∀ (vehicles : List (String × VehicleInfo)) (trams : TramMap) (vid : String)
      (t : TramState), vid ∉ vehicles.map Prod.fst →
      ((vid, t) ∈ vehicles.foldl (apply_vehicle hav stations now) trams ↔
        (vid, t) ∈ trams) := by
  intro vehicles
  induction vehicles with
  | nil => intro trams vid t _; exact Iff.rfl
  | cons e rest ih =>
    intro trams vid t hv
    simp only [List.map_cons, List.mem_cons, not_or] at hv
    rw [List.foldl_cons, ih _ vid t hv.2]
    unfold apply_vehicle
    by_cases hs : (alookup e.1 trams).isSome
    · rw [if_pos hs]
      exact assocUpdate_mem_ne e.1 vid _ trams t hv.1
    · rw [if_neg hs]
      simp only [List.mem_append, List.mem_singleton]
      constructor
      · rintro (h1 | h1)
        · exact h1
        · exact absurd (congrArg Prod.fst h1) hv.1
      · exact Or.inl

/-- Keys after one update/insert: the old keys plus possibly the feed key. -/
theorem apply_vehicle_key_sub (hav : Coord → Coord → ℚ) (stations : StationMap)
    (now : Int) (trams : TramMap) (e : String × VehicleInfo) (k : String)
    (hk : k ∈ (apply_vehicle hav stations now trams e).map Prod.fst) :
    k ∈ trams.map Prod.fst ∨ k = e.1 := by
  unfold apply_vehicle at hk
  by_cases hs : (alookup e.1 trams).isSome
  · rw [if_pos hs, assocUpdate_map_fst] at hk
    exact Or.inl hk
  · rw [if_neg hs] at hk
    simp only [List.map_append, List.mem_append, List.map_cons, List.map_nil,
      List.mem_singleton] at hk
    exact hk

/-- The fresh state of a vehicle first seen in this tick is inserted as-is,
and it is the only entry under that key after the pass. -/
theorem foldl_apply_vehicle_fresh (hav : Coord → Coord → ℚ)
    (stations : StationMap) (now : Int) :
    ∀ (vehicles : List (String × VehicleInfo)) (trams : TramMap)
      (vid : String) (veh : VehicleInfo),
      (vehicles.map Prod.fst).Nodup → (vid, veh) ∈ vehicles →
      vid ∉ trams.map Prod.fst →
      ((vid, TramState.from_vehicle_info veh now) ∈
          vehicles.foldl (apply_vehicle hav stations now) trams ∧
       ∀ t, (vid, t) ∈ vehicles.foldl (apply_vehicle hav stations now) trams →
         t = TramState.from_vehicle_info veh now) := by
  intro vehicles
  induction vehicles with
  | nil => intro trams vid veh _ hmem; cases hmem
  | cons e rest ih =>
    intro trams vid veh hnd hmem hvid
    simp only [List.map_cons, List.nodup_cons] at hnd
    rw [List.foldl_cons]
    rcases List.mem_cons.mp hmem with heq | hrest
    · subst heq
      have hnone : alookup vid trams = none := (alookup_eq_none_iff _ _).mpr hvid
      have happly : apply_vehicle hav stations now trams (vid, veh) =
          trams ++ [(vid, TramState.from_vehicle_info veh now)] := by
        unfold apply_vehicle
        rw [hnone]
        rfl
      rw [happly]
      have hvrest : vid ∉ rest.map Prod.fst := hnd.1
      constructor
      · rw [foldl_apply_vehicle_untouched hav stations now rest _ vid _ hvrest]
        simp
      · intro t ht
        rw [foldl_apply_vehicle_untouched hav stations now rest _ vid t hvrest] at ht
        rcases List.mem_append.mp ht with h1 | h1
        · exact absurd (List.mem_map_of_mem Prod.fst h1) hvid
        · exact congrArg Prod.snd (List.mem_singleton.mp h1)
    · have hvin : vid ∈ rest.map Prod.fst := List.mem_map_of_mem Prod.fst hrest
      have hne : vid ≠ e.1 := fun hc => hnd.1 (hc ▸ hvin)
      have hvid' : vid ∉ (apply_vehicle hav stations now trams e).map Prod.fst := by
        intro hc
        rcases apply_vehicle_key_sub hav stations now trams e vid hc with h1 | h1
        · exact hvid h1
        · exact hne h1
      exact ih _ vid veh hnd.2 hrest hvid'

/-- The update/insert pass introduces no `InDepot` status. -/
theorem foldl_apply_vehicle_no_inDepot (hav : Coord → Coord → ℚ)
    (stations : StationMap) (now : Int) :
    ∀ (vehicles : List (String × VehicleInfo)) (trams : TramMap),
      (∀ x ∈ trams, x.2.status ≠ TramStatus.inDepot) →
      ∀ x ∈ vehicles.foldl (apply_vehicle hav stations now) trams,
        x.2.status ≠ TramStatus.inDepot := by
  intro vehicles
  induction vehicles with
  | nil => intro trams h; exact h
  | cons e rest ih =>
    intro trams h
    rw [List.foldl_cons]
    apply ih
    intro x hx
    unfold apply_vehicle at hx
    by_cases hs : (alookup e.1 trams).isSome
    · rw [if_pos hs] at hx
      rcases assocUpdate_mem_elim e.1 _ trams x hx with h1 | ⟨v, hv, hfv⟩
      · exact h x h1
      · rw [hfv]
        rcases update_tram_status_cases hav v e.2 now stations with hc | hc | hc
        · rw [hc]
          exact h (x.1, v) hv
        · rw [hc]
          exact fun hcc => TramStatus.noConfusion hcc
        · rw [hc]
          exact fun hcc => TramStatus.noConfusion hcc
    · rw [if_neg hs] at hx
      rcases List.mem_append.mp hx with h1 | h1
      · exact h x h1
      · rw [List.mem_singleton.mp h1]
        exact fun hcc => TramStatus.noConfusion hcc

/-- `missing_update` never changes the key. -/
theorem missing_update_key (vehicles : List (String × VehicleInfo)) (now : Int)
    (e e' : String × TramState) (h : missing_update vehicles now e = some e') :
    e'.1 = e.1 := by
  unfold missing_update at h
  by_cases hs : (alookup e.1 vehicles).isSome
  · rw [if_pos hs] at h
    injection h with h
    rw [← h]
  · rw [if_neg hs] at h
    dsimp only at h
    by_cases hm : 0 ≤ (now - e.2.last_seen_in_feed).tdiv 60 ∧
        (now - e.2.last_seen_in_feed).tdiv 60 ≤ 60
    · rw [if_pos hm] at h
      injection h with h
      rw [← h]
    · rw [if_neg hm] at h
      exact Option.noConfusion h

/-- **C9.** At the end of a tick no remaining tram has status `InDepot`;
a tracked tram absent from the feed for more than 60 (truncated) minutes is
removed, and one absent for 0 to 60 minutes is kept with status `Stale`. -/
theorem c9_no_indepot_after_tick (hav : Coord → Coord → ℚ)
    (line_geometries : List (String × List (List Coord)))
    (vehicles : List (String × VehicleInfo)) (stations : StationMap)
    (now : Int) (trams : TramMap)
    (hnd : (trams.map Prod.fst).Nodup)
    (hpre : ∀ x ∈ trams, x.2.status ≠ TramStatus.inDepot) :
    (∀ x ∈ (tracker_update hav line_geometries vehicles stations now trams).1,
       x.2.status ≠ TramStatus.inDepot) ∧
    (∀ vid t, (vid, t) ∈ trams → alookup vid vehicles = none →
       60 < (now - t.last_seen_in_feed).tdiv 60 →
       ∀ t', (vid, t') ∉ (tracker_update hav line_geometries vehicles stations now trams).1) ∧
    (∀ vid t, (vid, t) ∈ trams → alookup vid vehicles = none →
       0 ≤ (now - t.last_seen_in_feed).tdiv 60 →
       (now - t.last_seen_in_feed).tdiv 60 ≤ 60 →
       (vid, { t with status := TramStatus.stale }) ∈
         (tracker_update hav line_geometries vehicles stations now trams).1) := by
  have hfst : (tracker_update hav line_geometries vehicles stations now trams).1 =
      handle_missing_trams vehicles now
        (vehicles.foldl (apply_vehicle hav stations now) trams) := rfl
  refine ⟨?_, ?_, ?_⟩
  · intro x hx
    rw [hfst] at hx
    obtain ⟨e, he, hme⟩ := List.mem_filterMap.mp hx
    have hestat := foldl_apply_vehicle_no_inDepot hav stations now vehicles trams hpre e he
    unfold missing_update at hme
    by_cases hs : (alookup e.1 vehicles).isSome
    · rw [if_pos hs] at hme
      injection hme with hme
      rw [← hme]
      exact hestat
    · rw [if_neg hs] at hme
      dsimp only at hme
      by_cases hm : 0 ≤ (now - e.2.last_seen_in_feed).tdiv 60 ∧
          (now - e.2.last_seen_in_feed).tdiv 60 ≤ 60
      · rw [if_pos hm] at hme
        injection hme with hme
        rw [← hme]
        exact fun hcc => TramStatus.noConfusion hcc
      · rw [if_neg hm] at hme
        exact Option.noConfusion hme
  · intro vid t hmem hlk hgt t' hc
    rw [hfst] at hc
    obtain ⟨e, he, hme⟩ := List.mem_filterMap.mp hc
    have hkey : vid = e.1 := missing_update_key vehicles now e _ hme
    have hvidkeys : vid ∉ vehicles.map Prod.fst := (alookup_eq_none_iff _ _).mp hlk
    have he2 : (vid, e.2) ∈ vehicles.foldl (apply_vehicle hav stations now) trams := by
      rw [hkey]
      exact he
    have he' : (vid, e.2) ∈ trams :=
      (foldl_apply_vehicle_untouched hav stations now vehicles trams vid e.2 hvidkeys).mp he2
    have hte : e.2 = t := mem_unique_of_nodup vid e.2 t trams hnd he' hmem
    unfold missing_update at hme
    rw [← hkey] at hme
    rw [if_neg (by rw [hlk]; exact Bool.false_ne_true)] at hme
    dsimp only at hme
    rw [if_neg (by rw [hte]; omega)] at hme
    exact Option.noConfusion hme
  · intro vid t hmem hlk h0 h60
    rw [hfst]
    have hvidkeys : vid ∉ vehicles.map Prod.fst := (alookup_eq_none_iff _ _).mp hlk
    have hstep1 : (vid, t) ∈ vehicles.foldl (apply_vehicle hav stations now) trams :=
      (foldl_apply_vehicle_untouched hav stations now vehicles trams vid t hvidkeys).mpr hmem
    refine List.mem_filterMap.mpr ⟨(vid, t), hstep1, ?_⟩
    unfold missing_update
    rw [if_neg (by rw [hlk]; exact Bool.false_ne_true)]
    dsimp only
    rw [if_pos ⟨h0, h60⟩]

/-- **C10.** A vehicle first seen in this tick is inserted as the fresh
`TramState::from_vehicle_info` state — status `EnRoute`, position `[0, 0]`,
no confirmed stops — without the tick's feed entry applied to it, and no
position is emitted for it in this tick. -/
theorem c10_new_vehicle_fresh_state (hav : Coord → Coord → ℚ)
    (line_geometries : List (String × List (List Coord)))
    (vehicles : List (String × VehicleInfo)) (stations : StationMap)
    (now : Int) (trams : TramMap) (vid : String) (veh : VehicleInfo)
    (hvnd : (vehicles.map Prod.fst).Nodup)
    (hmem : (vid, veh) ∈ vehicles)
    (hnew : alookup vid trams = none) :
    ((vid, TramState.from_vehicle_info veh now) ∈
        (tracker_update hav line_geometries vehicles stations now trams).1) ∧
    (∀ t, (vid, t) ∈ (tracker_update hav line_geometries vehicles stations now trams).1 →
       t = TramState.from_vehicle_info veh now) ∧
    (TramState.from_vehicle_info veh now).status = TramStatus.enRoute ∧
    (TramState.from_vehicle_info veh now).current_position = (0, 0) ∧
    (TramState.from_vehicle_info veh now).last_confirmed_stop = none ∧
    (TramState.from_vehicle_info veh now).next_confirmed_stop = none ∧
    (∀ p, (vid, p) ∉ (tracker_update hav line_geometries vehicles stations now trams).2) := by
  have hfst : (tracker_update hav line_geometries vehicles stations now trams).1 =
      handle_missing_trams vehicles now
        (vehicles.foldl (apply_vehicle hav stations now) trams) := rfl
  have hvid : vid ∉ trams.map Prod.fst := (alookup_eq_none_iff _ _).mp hnew
  obtain ⟨hin, huniq⟩ := foldl_apply_vehicle_fresh hav stations now vehicles trams
    vid veh hvnd hmem hvid
  have hsome : (alookup vid vehicles).isSome = true :=
    alookup_isSome_of_mem vid veh vehicles hmem
  have hmu : missing_update vehicles now (vid, TramState.from_vehicle_info veh now) =
      some (vid, TramState.from_vehicle_info veh now) := by
    unfold missing_update
    rw [if_pos hsome]
  have hfinal_uniq : ∀ t, (vid, t) ∈
      (tracker_update hav line_geometries vehicles stations now trams).1 →
      t = TramState.from_vehicle_info veh now := by
    intro t ht
    rw [hfst] at ht
    obtain ⟨e, he, hme⟩ := List.mem_filterMap.mp ht
    have hkey : vid = e.1 := missing_update_key vehicles now e _ hme
    have hte : e.2 = TramState.from_vehicle_info veh now := by
      apply huniq
      rw [hkey]
      exact he
    unfold missing_update at hme
    rw [← hkey] at hme
    rw [if_pos hsome] at hme
    injection hme with hme
    have ht2 : e.2 = t := congrArg Prod.snd hme
    rw [← ht2, hte]
  refine ⟨?_, hfinal_uniq, rfl, rfl, rfl, rfl, ?_⟩
  · rw [hfst]
    exact List.mem_filterMap.mpr ⟨(vid, TramState.from_vehicle_info veh now), hin, hmu⟩
  · intro p hp
    obtain ⟨e, he, hpe⟩ := List.mem_filterMap.mp hp
    by_cases hd : e.2.status = TramStatus.inDepot
    · rw [if_pos hd] at hpe
      exact Option.noConfusion hpe
    · rw [if_neg hd] at hpe
      cases hcalc : calculate_tram_position hav line_geometries e.2 now stations with
      | none =>
        rw [hcalc] at hpe
        exact Option.noConfusion hpe
      | some q =>
        rw [hcalc] at hpe
        injection hpe with hpe
        have hkey : e.1 = vid := congrArg Prod.fst hpe
        have hte : e.2 = TramState.from_vehicle_info veh now := by
          apply hfinal_uniq
          rw [← hkey]
          exact (by simpa using he)
        rw [hte] at hcalc
        have : calculate_tram_position hav line_geometries
            (TramState.from_vehicle_info veh now) now stations = none := rfl
        rw [this] at hcalc
        exact Option.noConfusion hcalc

/-- C9 witness tram last seen at instant 0 (61 truncated minutes before the
witness tick). -/
def c9ex_tA : TramState :=
  { vehicle_id := "a", trip_code := 1, physical_vehicle_id := none,
    line_number := "1", destination := "X", origin := none,
    current_position := (0, 0), current_segment := none, progress_on_segment := 0,
    route_stops := [], current_stop_index := 0,
    last_confirmed_stop := none, next_confirmed_stop := none,
    last_update := 0, last_seen_in_feed := 0,
    status := .enRoute, delay_minutes := none }

/-- C9 witness tram last seen at instant 100 (60 truncated minutes before
the witness tick). -/
def c9ex_tB : TramState :=
  { c9ex_tA with vehicle_id := "b", last_seen_in_feed := 100 }

/-- Witness for C9 at `now = 3700` with an empty feed: the tram absent for
61 truncated minutes is gone, the one absent for 60 is kept as `Stale`. -/
theorem c9_witness :
    ("a", c9ex_tA) ∉
      (tracker_update (fun _ _ => 0) [] [] [] 3700 [("a", c9ex_tA), ("b", c9ex_tB)]).1 ∧
    ("b", { c9ex_tB with status := TramStatus.stale }) ∈
      (tracker_update (fun _ _ => 0) [] [] [] 3700 [("a", c9ex_tA), ("b", c9ex_tB)]).1 := by
  have h := c9_no_indepot_after_tick (fun _ _ => 0) [] [] [] 3700
    [("a", c9ex_tA), ("b", c9ex_tB)] (by decide) (by decide)
  refine ⟨?_, ?_⟩
  · exact h.2.1 "a" c9ex_tA (List.Mem.head _) rfl (by decide) c9ex_tA
  · exact h.2.2 "b" c9ex_tB (List.Mem.tail _ (List.Mem.head _)) rfl (by decide) (by decide)

/-- C10 witness feed entry for a vehicle not yet tracked. -/
def c10ex_veh : VehicleInfo :=
  { vehicle_id := "n", trip_code := 10, physical_vehicle_id := none,
    line_number := "3", destination := "Mitte", origin := none,
    delay_minutes := some 2, last_departure_planned := .valid 40,
    current_stop_id := "S", current_stop_name := "S",
    next_stop_id := some "T", next_stop_name := some "T" }

/-- An arbitrary position record used to instantiate the no-emission part. -/
def c10ex_pos : VehiclePosition :=
  ⟨"n", "3", "Straßenbahn 3", "Mitte", 0, "S", "T", [], 0, 0, none, 0⟩

/-- Witness for C10: starting from an empty tracker, the first tick inserts
the fresh state untouched by the feed entry and emits no position for it. -/
theorem c10_witness :
    ("n", TramState.from_vehicle_info c10ex_veh 50) ∈
      (tracker_update (fun _ _ => 0) [] [("n", c10ex_veh)] [] 50 []).1 ∧
    (TramState.from_vehicle_info c10ex_veh 50).status = TramStatus.enRoute ∧
    (TramState.from_vehicle_info c10ex_veh 50).last_confirmed_stop = none ∧
    ("n", c10ex_pos) ∉ (tracker_update (fun _ _ => 0) [] [("n", c10ex_veh)] [] 50 []).2 := by
  have h := c10_new_vehicle_fresh_state (fun _ _ => 0) [] [("n", c10ex_veh)] [] 50 []
    "n" c10ex_veh (by decide) (List.Mem.head _) rfl
  exact ⟨h.1, h.2.2.1, h.2.2.2.2.1, h.2.2.2.2.2.2 c10ex_pos⟩

/-! ## Relation resolution (`SyncManager::resolve_relations`, step 1) -/

/-- A station row `(osm_id, lat, lon)` as fetched for the distance checks. -/
structure StationRow where
  osm_id : Int
  lat : ℚ
  lon : ℚ
deriving DecidableEq

/-- A platform row with its optional station link. -/
structure PlatformRow where
  osm_id : Int
  lat : ℚ
  lon : ℚ
  station_id : Option Int
deriving DecidableEq

/-- The squared planar degree distance used by the spatial fallback. -/
def sq_dist (plat plon slat slon : ℚ) : ℚ := (plat - slat) ^ 2 + (plon - slon) ^ 2

/-- `0.005_f64.powi(2)`: the squared-degree platform→station threshold. -/
def max_station_distance : ℚ := (5 / 1000) ^ 2

/-- Rust `Iterator::min_by` over station rows, keyed by squared distance to
the platform: the first of equally minimal elements wins (the comparator's
`unwrap_or(Greater)` only matters for NaN, which ℚ has none of). -/
def min_by_dist (plat plon : ℚ) : Option StationRow → List StationRow → Option StationRow
  | best, [] => best
  | none, s :: rest => min_by_dist plat plon (some s) rest
  | some b, s :: rest =>
    if sq_dist plat plon s.lat s.lon < sq_dist plat plon b.lat b.lon then
      min_by_dist plat plon (some s) rest
    else
      min_by_dist plat plon (some b) rest

/-- `filter(dist < threshold).min_by(dist)` from `resolve_relations`. -/
def find_nearest_station (stations : List StationRow) (plat plon : ℚ) :
    Option StationRow :=
  min_by_dist plat plon none
    (stations.filter fun s => sq_dist plat plon s.lat s.lon < max_station_distance)

/-- Step 1 of `resolve_relations` for one platform row: only rows with
`station_id IS NULL` are fetched, and the `UPDATE` fires exactly when a
station within the threshold exists. -/
def link_platform (stations : List StationRow) (p : PlatformRow) : PlatformRow :=
  match p.station_id with
  | some _ => p
  | none =>
    match find_nearest_station stations p.lat p.lon with
    | some s => { p with station_id := some s.osm_id }
    | none => p

/-- Step 1 of `resolve_relations` over all platforms of the area. -/
def resolve_platform_links (stations : List StationRow) (platforms : List PlatformRow) :
    List PlatformRow :=
  platforms.map (link_platform stations)

/-- `min_by` returns `none` only for an empty iterator. -/
theorem min_by_dist_none_iff (plat plon : ℚ) :
    ∀ (l : List StationRow) (best : Option StationRow),
      min_by_dist plat plon best l = none ↔ best = none ∧ l = [] := by
  intro l
  induction l with
  | nil =>
    intro best
    cases best with
    | none => simp [min_by_dist]
    | some b => simp [min_by_dist]
  | cons s rest ih =>
    intro best
    cases best with
    | none =>
      rw [min_by_dist, ih (some s)]
      simp
    | some b =>
      rw [min_by_dist]
      by_cases hlt : sq_dist plat plon s.lat s.lon < sq_dist plat plon b.lat b.lon
      · rw [if_pos hlt, ih (some s)]
        simp
      · rw [if_neg hlt, ih (some b)]
        simp

/-- The `min_by` result is the accumulator or a scanned element. -/
theorem min_by_dist_mem (plat plon : ℚ) :
    ∀ (l : List StationRow) (best : Option StationRow) (s : StationRow),
      min_by_dist plat plon best l = some s → best = some s ∨ s ∈ l := by
  intro l
  induction l with
  | nil =>
    intro best s h
    cases best with
    | none => exact Option.noConfusion h
    | some b => exact Or.inl h
  | cons x rest ih =>
    intro best s h
    cases best with
    | none =>
      rw [min_by_dist] at h
      rcases ih (some x) s h with h1 | h1
      · injection h1 with h1
        exact Or.inr (h1 ▸ List.mem_cons_self x rest)
      · exact Or.inr (List.mem_cons_of_mem x h1)
    | some b =>
      rw [min_by_dist] at h
      by_cases hlt : sq_dist plat plon x.lat x.lon < sq_dist plat plon b.lat b.lon
      · rw [if_pos hlt] at h
        rcases ih (some x) s h with h1 | h1
        · injection h1 with h1
          exact Or.inr (h1 ▸ List.mem_cons_self x rest)
        · exact Or.inr (List.mem_cons_of_mem x h1)
      · rw [if_neg hlt] at h
        rcases ih (some b) s h with h1 | h1
        · exact Or.inl h1
        · exact Or.inr (List.mem_cons_of_mem x h1)

/-- The `min_by` result minimises the distance over the scanned elements and
the accumulator. -/
theorem min_by_dist_min (plat plon : ℚ) :
    ∀ (l : List StationRow) (best : Option StationRow) (s : StationRow),
      min_by_dist plat plon best l = some s →
      (∀ x ∈ l, sq_dist plat plon s.lat s.lon ≤ sq_dist plat plon x.lat x.lon) ∧
      (∀ b, best = some b →
        sq_dist plat plon s.lat s.lon ≤ sq_dist plat plon b.lat b.lon) := by
  intro l
  induction l with
  | nil =>
    intro best s h
    cases best with
    | none => exact Option.noConfusion h
    | some b =>
      have hbs : b = s := by injection h
      refine ⟨fun x hx => absurd hx (List.not_mem_nil x), fun b' hb' => ?_⟩
      injection hb' with hb'
      rw [← hb', hbs]
  | cons x rest ih =>
    intro best s h
    cases best with
    | none =>
      rw [min_by_dist] at h
      obtain ⟨h1, h2⟩ := ih (some x) s h
      have hsx := h2 x rfl
      refine ⟨fun y hy => ?_, fun b hb => Option.noConfusion hb⟩
      rcases List.mem_cons.mp hy with heq | hy'
      · rw [heq]
        exact hsx
      · exact h1 y hy'
    | some b =>
      rw [min_by_dist] at h
      by_cases hlt : sq_dist plat plon x.lat x.lon < sq_dist plat plon b.lat b.lon
      · rw [if_pos hlt] at h
        obtain ⟨h1, h2⟩ := ih (some x) s h
        have hsx := h2 x rfl
        refine ⟨fun y hy => ?_, fun b' hb' => ?_⟩
        · rcases List.mem_cons.mp hy with heq | hy'
          · rw [heq]
            exact hsx
          · exact h1 y hy'
        · injection hb' with hb'
          rw [← hb']
          exact le_of_lt (lt_of_le_of_lt hsx hlt)
      · rw [if_neg hlt] at h
        obtain ⟨h1, h2⟩ := ih (some b) s h
        have hsb := h2 b rfl
        refine ⟨fun y hy => ?_, fun b' hb' => ?_⟩
        · rcases List.mem_cons.mp hy with heq | hy'
          · rw [heq]
            exact le_trans hsb (not_lt.mp hlt)
          · exact h1 y hy'
        · injection hb' with hb'
          rw [← hb']
          exact hsb

/-- The search misses exactly when no station is strictly within the
threshold. -/
theorem find_nearest_station_none_iff (stations : List StationRow) (plat plon : ℚ) :
    find_nearest_station stations plat plon = none ↔
      ∀ s ∈ stations, ¬ sq_dist plat plon s.lat s.lon < max_station_distance := by
  unfold find_nearest_station
  rw [min_by_dist_none_iff]
  simp [List.filter_eq_nil_iff]

/-- A found station is a member strictly within the threshold at minimal
distance over all stations. -/
theorem find_nearest_station_some (stations : List StationRow) (plat plon : ℚ)
    (s : StationRow) (h : find_nearest_station stations plat plon = some s) :
    s ∈ stations ∧ sq_dist plat plon s.lat s.lon < max_station_distance ∧
      ∀ x ∈ stations, sq_dist plat plon s.lat s.lon ≤ sq_dist plat plon x.lat x.lon := by
  unfold find_nearest_station at h
  have hmem := min_by_dist_mem plat plon _ none s h
  have hmin := (min_by_dist_min plat plon _ none s h).1
  rcases hmem with h1 | h1
  · exact Option.noConfusion h1
  · rw [List.mem_filter] at h1
    obtain ⟨hs, hthr⟩ := h1
    rw [decide_eq_true_eq] at hthr
    refine ⟨hs, hthr, fun x hx => ?_⟩
    by_cases hxthr : sq_dist plat plon x.lat x.lon < max_station_distance
    · exact hmin x (List.mem_filter.mpr ⟨hx, decide_eq_true hxthr⟩)
    · exact le_of_lt (lt_of_lt_of_le hthr (not_lt.mp hxthr))

/-- **C8.** A platform with a null `station_id` is linked by the spatial
fallback if and only if some station lies strictly within the squared-degree
threshold `0.005²`, and then to a nearest such station; a platform with
every station at or past the threshold (in particular exactly at it) stays
unlinked; a platform exactly on a station coordinate links to a station at
distance zero; a platform whose `station_id` is already set is never
relinked. -/
theorem c8_platform_station_fallback (stations : List StationRow)
    (platforms : List PlatformRow) :
    (resolve_platform_links stations platforms = platforms.map (link_platform stations)) ∧
    (∀ p : PlatformRow, p.station_id = none →
      ((link_platform stations p).station_id.isSome = true ↔
        ∃ s ∈ stations, sq_dist p.lat p.lon s.lat s.lon < max_station_distance)) ∧
    (∀ p : PlatformRow, ∀ sid : Int, p.station_id = none →
      (link_platform stations p).station_id = some sid →
      ∃ s ∈ stations, s.osm_id = sid ∧
        sq_dist p.lat p.lon s.lat s.lon < max_station_distance ∧
        ∀ x ∈ stations,
          sq_dist p.lat p.lon s.lat s.lon ≤ sq_dist p.lat p.lon x.lat x.lon) ∧
    (∀ p : PlatformRow, p.station_id = none →
      (∀ s ∈ stations, max_station_distance ≤ sq_dist p.lat p.lon s.lat s.lon) →
      link_platform stations p = p) ∧
    (∀ p : PlatformRow, ∀ s, p.station_id = none → s ∈ stations →
      s.lat = p.lat → s.lon = p.lon →
      ∃ s2 ∈ stations, (link_platform stations p).station_id = some s2.osm_id ∧
        sq_dist p.lat p.lon s2.lat s2.lon = 0) ∧
    (∀ p : PlatformRow, p.station_id.isSome = true → link_platform stations p = p) := by
  have hlink_none : ∀ p : PlatformRow, p.station_id = none →
      link_platform stations p =
        (match find_nearest_station stations p.lat p.lon with
         | some s => { p with station_id := some s.osm_id }
         | none => p) := by
    intro p hp
    unfold link_platform
    rw [hp]
  have hnonneg : ∀ (a b c d : ℚ), 0 ≤ sq_dist a b c d := by
    intro a b c d
    unfold sq_dist
    positivity
  refine ⟨rfl, ?_, ?_, ?_, ?_, ?_⟩
  · intro p hp
    rw [hlink_none p hp]
    cases hfn : find_nearest_station stations p.lat p.lon with
    | none =>
      rw [hp]
      simp only [Option.isSome_none, Bool.false_eq_true, false_iff]
      rintro ⟨s, hs, hdist⟩
      exact ((find_nearest_station_none_iff stations p.lat p.lon).mp hfn s hs) hdist
    | some s =>
      simp only [Option.isSome_some, true_iff]
      obtain ⟨hs, hthr, _⟩ := find_nearest_station_some stations p.lat p.lon s hfn
      exact ⟨s, hs, hthr⟩
  · intro p sid hp hlink
    rw [hlink_none p hp] at hlink
    cases hfn : find_nearest_station stations p.lat p.lon with
    | none =>
      rw [hfn] at hlink
      rw [hp] at hlink
      exact Option.noConfusion hlink
    | some s =>
      rw [hfn] at hlink
      have hsid : s.osm_id = sid := by
        injection hlink
      obtain ⟨hs, hthr, hmin⟩ := find_nearest_station_some stations p.lat p.lon s hfn
      exact ⟨s, hs, hsid, hthr, hmin⟩
  · intro p hp hfar
    rw [hlink_none p hp]
    cases hfn : find_nearest_station stations p.lat p.lon with
    | none => rfl
    | some s =>
      exfalso
      obtain ⟨hs, hthr, _⟩ := find_nearest_station_some stations p.lat p.lon s hfn
      exact absurd hthr (not_lt.mpr (hfar s hs))
  · intro p s hp hs hlat hlon
    have hzero : sq_dist p.lat p.lon s.lat s.lon = 0 := by
      unfold sq_dist
      rw [hlat, hlon]
      ring
    cases hfn : find_nearest_station stations p.lat p.lon with
    | none =>
      exfalso
      refine (find_nearest_station_none_iff stations p.lat p.lon).mp hfn s hs ?_
      rw [hzero]
      norm_num [max_station_distance]
    | some s2 =>
      obtain ⟨hs2, _, hmin⟩ := find_nearest_station_some stations p.lat p.lon s2 hfn
      have hle := hmin s hs
      rw [hzero] at hle
      refine ⟨s2, hs2, ?_, le_antisymm hle (hnonneg _ _ _ _)⟩
      rw [hlink_none p hp, hfn]
  · intro p hp
    unfold link_platform
    cases hps : p.station_id with
    | none =>
      rw [hps] at hp
      exact absurd hp (by simp)
    | some sid => rfl

/-- C8 witness stations: one at the origin, one 0.003° away, one far. -/
def c8ex_stations : List StationRow :=
  [⟨1, 0, 0⟩, ⟨2, 0, 3 / 1000⟩, ⟨3, 1, 1⟩]

/-- Unlinked platform exactly on station 1's coordinate. -/
def c8ex_pA : PlatformRow := ⟨100, 0, 0, none⟩

/-- Unlinked platform at exactly the 0.005° threshold from station 1. -/
def c8ex_pD : PlatformRow := ⟨101, 5 / 1000, 0, none⟩

/-- Platform whose `station_id` was already set from stop_area membership. -/
def c8ex_pC : PlatformRow := ⟨102, 0, 0, some 7⟩

/-- Witness for C8: the on-coordinate platform links at distance zero, the
exactly-at-threshold platform stays unlinked, the pre-linked platform is
untouched. -/
theorem c8_witness :
    (link_platform c8ex_stations c8ex_pA).station_id.isSome = true ∧
    (∃ s2 ∈ c8ex_stations,
      (link_platform c8ex_stations c8ex_pA).station_id = some s2.osm_id ∧
      sq_dist c8ex_pA.lat c8ex_pA.lon s2.lat s2.lon = 0) ∧
    link_platform c8ex_stations c8ex_pD = c8ex_pD ∧
    link_platform c8ex_stations c8ex_pC = c8ex_pC := by
  have h := c8_platform_station_fallback c8ex_stations [c8ex_pA, c8ex_pD, c8ex_pC]
  refine ⟨?_, ?_, ?_, ?_⟩
  · refine (h.2.1 c8ex_pA rfl).mpr ⟨⟨1, 0, 0⟩, List.Mem.head _, ?_⟩
    norm_num [sq_dist, max_station_distance, c8ex_pA]
  · exact h.2.2.2.2.1 c8ex_pA ⟨1, 0, 0⟩ rfl (List.Mem.head _) rfl rfl
  · refine h.2.2.2.1 c8ex_pD rfl ?_
    intro s hs
    simp only [c8ex_stations, List.mem_cons, List.not_mem_nil, or_false] at hs
    rcases hs with rfl | rfl | rfl <;> norm_num [sq_dist, max_station_distance, c8ex_pD]
  · exact h.2.2.2.2.2 c8ex_pC rfl

end Omniviv
